import Mathlib

/-!
Verification of the travel-plan-permission policy core: the JSON
canonicalization and SHA-256 hashing used by the snapshot chain and policy
versioning, the snapshot store, the policy-lite rule engine, the approval
state machine, and the exception escalation workflow.

Conventions of the embedding:
* Python `dict` values are association lists in insertion order; `json.dumps`
  with `sort_keys=True` is modelled by sorting the entries by key at
  serialization time, exactly as the canonical serializer does.
* `datetime` values handled only through `isoformat()` are modelled as their
  ISO strings; `datetime` arithmetic (the escalation SLA) is modelled as
  integer seconds.
* `Decimal` amounts are modelled as integers (the claims under study never
  depend on fractional precision), `float` durations as rationals.
* Functions that raise are modelled with `Except`; functions that mutate an
  object raise-before-mutation style return the (unchanged) object alongside
  the error.
-/

/-- JSON values as produced by `model_dump(mode="json")` / consumed by
`json.dumps`.  Numbers are restricted to integers, which is all the payloads
under study contain. -/
inductive Json where
  | null : Json
  | bool (b : Bool) : Json
  | num (n : Int) : Json
  | str (s : String) : Json
  | arr (xs : List Json) : Json
  | obj (xs : List (String × Json)) : Json

/-- One hex digit, lowercase, as `"%x"` formatting produces. -/
def hexDigit (n : Nat) : Char :=
  if n < 10 then Char.ofNat (48 + n) else Char.ofNat (87 + n % 16)

/-- Fixed-width lowercase hex rendering (`width` nibbles, big-endian). -/
def hexFixed (width n : Nat) : List Char :=
  (List.range width).map (fun i => hexDigit ((n >>> (4 * (width - 1 - i))) % 16))

/-- JSON string escaping as `json.dumps` performs with its default
`ensure_ascii=True`: the two mandatory escapes, the short control escapes,
`\uXXXX` for other control characters and all non-ASCII characters
(surrogate pairs above U+FFFF). -/
def escapeChar (c : Char) : List Char :=
  let n := c.toNat
  if c = '"' then ['\\', '"']
  else if c = '\\' then ['\\', '\\']
  else if c = '\n' then ['\\', 'n']
  else if c = '\t' then ['\\', 't']
  else if c = '\r' then ['\\', 'r']
  else if n = 8 then ['\\', 'b']
  else if n = 12 then ['\\', 'f']
  else if n < 32 ∨ n > 126 then
    if n < 65536 then '\\' :: 'u' :: hexFixed 4 n
    else
      let m := n - 65536
      ('\\' :: 'u' :: hexFixed 4 (55296 + m / 1024)) ++
        ('\\' :: 'u' :: hexFixed 4 (56320 + m % 1024))
  else [c]

/-- A JSON string literal: quotes around the escaped characters. -/
def renderStr (s : String) : String :=
  String.mk ('"' :: s.data.flatMap escapeChar ++ ['"'])

/-- Code-point lexicographic strict order on character lists: exactly the
comparison Python uses for `str`, hence for `sorted` over dict keys. -/
def lexLt : List Char → List Char → Bool
  | [], [] => false
  | [], _ :: _ => true
  | _ :: _, [] => false
  | a :: as, b :: bs =>
      if a.toNat < b.toNat then true
      else if b.toNat < a.toNat then false
      else lexLt as bs

/-- `a <= b` on Python strings. -/
def strLe (a b : String) : Bool := !(lexLt b.data a.data)

/-- Order on object entries used by `sort_keys=True`: compare keys only. -/
def keyLe (a b : String × String) : Prop := strLe a.1 b.1 = true

instance : DecidableRel keyLe := fun a b =>
  inferInstanceAs (Decidable (strLe a.1 b.1 = true))

/-- Sort rendered object entries by key (Python `sorted` on the dict keys;
keys of a `dict` are distinct, so stability is irrelevant). -/
def sortPairs (l : List (String × String)) : List (String × String) :=
  l.insertionSort keyLe

/-- Render one sorted object entry. -/
def renderEntry (p : String × String) : String :=
  renderStr p.1 ++ ":" ++ p.2

mutual

/-- Canonical serialization: `json.dumps(·, separators=(",", ":"),
sort_keys=True)` — compact separators, keys sorted at every nesting depth,
ASCII-only escaping.  Each object serializes its values and then sorts the
rendered entries by key; since the sort inspects keys only, this yields the
byte string `json.dumps` produces by sorting the entries first. -/
def serialize : Json → String
  | .null => "null"
  | .bool true => "true"
  | .bool false => "false"
  | .num n => toString n
  | .str s => renderStr s
  | .arr xs => "[" ++ ",".intercalate (serializeList xs) ++ "]"
  | .obj xs =>
      "\x7b" ++ ",".intercalate ((sortPairs (serializeEntries xs)).map renderEntry)
        ++ "\x7d"
termination_by structural j => j

def serializeList : List Json → List String
  | [] => []
  | x :: xs => serialize x :: serializeList xs
termination_by structural l => l

def serializeEntries : List (String × Json) → List (String × String)
  | [] => []
  | (k, v) :: xs => (k, serialize v) :: serializeEntries xs
termination_by structural l => l

end

/-- UTF-8 encoding of a single code point. -/
def utf8Char (c : Char) : List Nat :=
  let n := c.toNat
  if n < 128 then [n]
  else if n < 2048 then [192 + n / 64, 128 + n % 64]
  else if n < 65536 then [224 + n / 4096, 128 + (n / 64) % 64, 128 + n % 64]
  else [240 + n / 262144, 128 + (n / 4096) % 64, 128 + (n / 64) % 64, 128 + n % 64]

/-- UTF-8 bytes of a string (`str.encode("utf-8")`). -/
def utf8 (s : String) : List Nat := s.data.flatMap utf8Char

/-! ### SHA-256 (FIPS 180-4), over `Nat` with explicit mod-2^32 arithmetic -/

/-- 32-bit truncation. -/
def w32 (n : Nat) : Nat := n % 4294967296

/-- Rotate a 32-bit word right by `k` bits. -/
def rotr (k x : Nat) : Nat := w32 ((x >>> k) ||| (x <<< (32 - k)))

/-- SHA-256 round constants. -/
def shaK : List Nat :=
  [1116352408, 1899447441, 3049323471, 3921009573, 961987163,
   1508970993, 2453635748, 2870763221, 3624381080, 310598401,
   607225278, 1426881987, 1925078388, 2162078206, 2614888103,
   3248222580, 3835390401, 4022224774, 264347078, 604807628,
   770255983, 1249150122, 1555081692, 1996064986, 2554220882,
   2821834349, 2952996808, 3210313671, 3336571891, 3584528711,
   113926993, 338241895, 666307205, 773529912, 1294757372,
   1396182291, 1695183700, 1986661051, 2177026350, 2456956037,
   2730485921, 2820302411, 3259730800, 3345764771, 3516065817,
   3600352804, 4094571909, 275423344, 430227734, 506948616,
   659060556, 883997877, 958139571, 1322822218, 1537002063,
   1747873779, 1955562222, 2024104815, 2227730452, 2361852424,
   2428436474, 2756734187, 3204031479, 3329325298]

/-- SHA-256 initial hash value. -/
def shaH0 : List Nat :=
  [1779033703, 3144134277, 1013904242, 2773480762, 1359893119,
   2600822924, 528734635, 1541459225]

/-- Big-endian 64-bit length field of the padding. -/
def be64 (n : Nat) : List Nat :=
  (List.range 8).map fun i => (n >>> (8 * (7 - i))) % 256

/-- Append the `0x80` byte, zero padding to 56 mod 64, and the bit length. -/
def shaPad (msg : List Nat) : List Nat :=
  let zeros := (120 - ((msg.length + 1) % 64)) % 64
  msg ++ [128] ++ List.replicate zeros 0 ++ be64 (8 * msg.length)

/-- Split a list into 64-byte blocks (`fuel` bounds the number of blocks so
the recursion is structural and computes in the kernel). -/
def chunksAux (fuel : Nat) (l : List Nat) : List (List Nat) :=
  match fuel with
  | 0 => []
  | fuel + 1 =>
      if l.isEmpty then []
      else l.take 64 :: chunksAux fuel (l.drop 64)

/-- Split the padded message into 64-byte blocks. -/
def chunks64 (l : List Nat) : List (List Nat) :=
  chunksAux l.length l

/-- The 16 initial 32-bit words of a block, big-endian. -/
def blockWords (b : List Nat) : List Nat :=
  (List.range 16).map fun i =>
    (b.getD (4 * i) 0) * 16777216 + (b.getD (4 * i + 1) 0) * 65536 +
      (b.getD (4 * i + 2) 0) * 256 + b.getD (4 * i + 3) 0

/-- Extend 16 message words to the 64-entry message schedule. -/
def shaSchedule (w16 : List Nat) : List Nat :=
  (List.range 48).foldl
    (fun w _ =>
      let n := w.length
      let s0 :=
        let x := w.getD (n - 15) 0
        (rotr 7 x).xor ((rotr 18 x).xor (x >>> 3))
      let s1 :=
        let x := w.getD (n - 2) 0
        (rotr 17 x).xor ((rotr 19 x).xor (x >>> 10))
      w ++ [w32 (w.getD (n - 16) 0 + s0 + w.getD (n - 7) 0 + s1)])
    w16

/-- One compression round. -/
def shaRound (st : List Nat) (kw : Nat × Nat) : List Nat :=
  let a := st.getD 0 0
  let b := st.getD 1 0
  let c := st.getD 2 0
  let d := st.getD 3 0
  let e := st.getD 4 0
  let f := st.getD 5 0
  let g := st.getD 6 0
  let h := st.getD 7 0
  let s1 := (rotr 6 e).xor ((rotr 11 e).xor (rotr 25 e))
  let ch := (e.land f).xor ((e.xor 4294967295).land g)
  let t1 := w32 (h + s1 + ch + kw.1 + kw.2)
  let s0 := (rotr 2 a).xor ((rotr 13 a).xor (rotr 22 a))
  let maj := (a.land b).xor ((a.land c).xor (b.land c))
  let t2 := w32 (s0 + maj)
  [w32 (t1 + t2), a, b, c, w32 (d + t1), e, f, g]

/-- Compress one 64-byte block into the running hash state. -/
def shaCompress (st : List Nat) (block : List Nat) : List Nat :=
  let w := shaSchedule (blockWords block)
  let out := (shaK.zip w).foldl shaRound st
  (st.zip out).map fun p => w32 (p.1 + p.2)

/-- SHA-256 digest of a byte sequence, as the 64-character lowercase hex
string `hashlib.sha256(...).hexdigest()` returns. -/
def sha256Hex (msg : List Nat) : String :=
  let final := (chunks64 (shaPad msg)).foldl shaCompress shaH0
  String.mk (final.flatMap (hexFixed 8))

/-- `_hash_payload`: canonical-JSON serialize, UTF-8 encode, SHA-256. -/
def hash_payload (payload : Json) : String :=
  sha256Hex (utf8 (serialize payload))

set_option maxRecDepth 100000 in
theorem sha256_test_vector :
    sha256Hex (utf8 "abc") =
      "ba7816bf8f01cfea414140de5dae2223b00361a396177a9cb410ff61f20015ad" := by
  decide

/-! ## Validation results and snapshots (`snapshots.py`, `validation.py`) -/

/-- `ValidationResult`: outcome of one validation rule.  `severity` holds the
`ValidationSeverity` value string (`"error"`, `"warning"` or `"info"`), which
is what `model_dump(mode="json")` emits for the enum. -/
structure ValidationResult where
  code : String
  message : String
  severity : String
  rule_name : String
  blocking : Bool
deriving DecidableEq

/-- `model_dump(mode="json")` of a `ValidationResult`, fields in declaration
order (the order is immaterial under `sort_keys=True`). -/
def ValidationResult.dump (r : ValidationResult) : Json :=
  .obj [("code", .str r.code), ("message", .str r.message),
        ("severity", .str r.severity), ("rule_name", .str r.rule_name),
        ("blocking", .bool r.blocking)]

/-- An optional string as JSON (`None` dumps to `null`). -/
def optStr : Option String → Json
  | none => .null
  | some s => .str s

/-- `ValidationSnapshot`: one immutable record of a validation run.  The
`timestamp` is modelled by its `isoformat()` string, which is the only view
the snapshot code takes of it. -/
structure ValidationSnapshot where
  trip_id : String
  timestamp : String
  policy_version : String
  input_data : List (String × Json)
  results : List ValidationResult
  previous_hash : Option String
  snapshot_hash : Option String
  chain_hash : Option String

/-- The payload `_set_hashes` digests: every field except `snapshot_hash`
and `chain_hash`, with the timestamp in ISO form and the results dumped. -/
def snapshotPayload (s : ValidationSnapshot) : Json :=
  .obj [("trip_id", .str s.trip_id),
        ("timestamp", .str s.timestamp),
        ("policy_version", .str s.policy_version),
        ("input_data", .obj s.input_data),
        ("results", .arr (s.results.map ValidationResult.dump)),
        ("previous_hash", optStr s.previous_hash)]

/-- `ValidationSnapshot._set_hashes`: the `mode="after"` model validator.
Computes the content hash over the payload above, then the chain hash over
`(previous_hash or "") + snapshot_hash`, and overwrites both hash fields.
Note `x or ""` coincides with `getD ""` because the fallback is `""`. -/
def set_hashes (s : ValidationSnapshot) : ValidationSnapshot :=
  let content_hash := hash_payload (snapshotPayload s)
  let chain_input := (s.previous_hash.getD "") ++ content_hash
  { s with snapshot_hash := some content_hash
           chain_hash := some (sha256Hex (utf8 chain_input)) }

/-- Constructing a `ValidationSnapshot`: pydantic builds the record from the
supplied fields (including any caller-supplied hash fields) and then runs
the `_set_hashes` validator. -/
def mkValidationSnapshot (trip_id timestamp policy_version : String)
    (input_data : List (String × Json)) (results : List ValidationResult)
    (previous_hash snapshot_hash chain_hash : Option String) :
    ValidationSnapshot :=
  set_hashes
    { trip_id := trip_id, timestamp := timestamp
      policy_version := policy_version, input_data := input_data
      results := results, previous_hash := previous_hash
      snapshot_hash := snapshot_hash, chain_hash := chain_hash }

/-- The chain invariant of a snapshot:
`chain_hash = sha256((previous_hash or "") + snapshot_hash)`. -/
def chainOk (s : ValidationSnapshot) : Prop :=
  s.chain_hash =
    some (sha256Hex (utf8 ((s.previous_hash.getD "") ++ (s.snapshot_hash.getD ""))))

/-- Field extraction used by `load_snapshot`: a JSON string. -/
def parseStr : Json → Except String String
  | .str s => .ok s
  | _ => .error "expected string"

/-- Field extraction: an optional JSON string (`null` accepted). -/
def parseOptStr : Json → Except String (Option String)
  | .null => .ok none
  | .str s => .ok (some s)
  | _ => .error "expected string or null"

/-- Field extraction: a JSON object, as its entry list. -/
def parseObj : Json → Except String (List (String × Json))
  | .obj xs => .ok xs
  | _ => .error "expected object"

/-- Field extraction: a JSON bool. -/
def parseBool : Json → Except String Bool
  | .bool b => .ok b
  | _ => .error "expected bool"

/-- Lookup of a required field in a decoded JSON object. -/
def getField (xs : List (String × Json)) (k : String) : Except String Json :=
  match xs.lookup k with
  | some v => .ok v
  | none => .error ("missing field " ++ k)

/-- Lookup of an optional field (absent defaults to `null`). -/
def getFieldD (xs : List (String × Json)) (k : String) : Json :=
  (xs.lookup k).getD .null

/-- Parsing one stored `ValidationResult`. -/
def parseResult (j : Json) : Except String ValidationResult := do
  let xs ← parseObj j
  let code ← parseStr (← getField xs "code")
  let message ← parseStr (← getField xs "message")
  let severity ← parseStr (← getField xs "severity")
  let rule_name ← parseStr (← getField xs "rule_name")
  let blocking ← parseBool (← getField xs "blocking")
  .ok { code := code, message := message, severity := severity
        rule_name := rule_name, blocking := blocking }

/-- Parsing a list of stored results. -/
def parseResults : List Json → Except String (List ValidationResult)
  | [] => .ok []
  | j :: js => do
      let r ← parseResult j
      let rs ← parseResults js
      .ok (r :: rs)

/-- Field extraction: a JSON array, as its element list. -/
def parseArr : Json → Except String (List Json)
  | .arr xs => .ok xs
  | _ => .error "expected array"

/-- `ValidationSnapshotStore.load_snapshot`: decode the stored JSON into the
model fields — including whatever hash fields the file carries — and run
model validation, which ends in `_set_hashes`. -/
def loadSnapshot (data : Json) : Except String ValidationSnapshot := do
  let xs ← parseObj data
  let trip_id ← parseStr (← getField xs "trip_id")
  let timestamp ← parseStr (← getField xs "timestamp")
  let policy_version ← parseStr (← getField xs "policy_version")
  let input_data ← parseObj (← getField xs "input_data")
  let results ← parseResults (← parseArr (← getField xs "results"))
  let previous_hash ← parseOptStr (getFieldD xs "previous_hash")
  let snapshot_hash ← parseOptStr (getFieldD xs "snapshot_hash")
  let chain_hash ← parseOptStr (getFieldD xs "chain_hash")
  .ok (mkValidationSnapshot trip_id timestamp policy_version input_data
    results previous_hash snapshot_hash chain_hash)

/-- `model_dump(mode="json")` of a full snapshot: all eight fields. -/
def ValidationSnapshot.dump (s : ValidationSnapshot) : Json :=
  .obj [("trip_id", .str s.trip_id),
        ("timestamp", .str s.timestamp),
        ("policy_version", .str s.policy_version),
        ("input_data", .obj s.input_data),
        ("results", .arr (s.results.map ValidationResult.dump)),
        ("previous_hash", optStr s.previous_hash),
        ("snapshot_hash", optStr s.snapshot_hash),
        ("chain_hash", optStr s.chain_hash)]

/-- `timestamp.isoformat().replace(":", "-") + ".json"`.  The pattern is a
single character, so the substring replace is a character map. -/
def snapshotFilename (s : ValidationSnapshot) : String :=
  String.mk (s.timestamp.data.map fun c => if c = ':' then '-' else c) ++ ".json"

/-- The snapshot store as its on-disk state: one entry per written file,
keyed by `(trip_id, filename)`, newest first. -/
abbrev SnapshotStore := List ((String × String) × String)

/-- A file exists at the given identity. -/
def SnapshotStore.exists (store : SnapshotStore) (key : String × String) : Bool :=
  store.any fun e => e.1 = key

/-- Contents stored at an identity, if any. -/
def SnapshotStore.read (store : SnapshotStore) (key : String × String) :
    Option String :=
  store.lookup key

/-- `ValidationSnapshotStore.append`: serialize the full dump compactly with
sorted keys, reject payloads over 10240 UTF-8 bytes, then write with
exclusive-create semantics — an existing file at the same path fails the
write.  Errors leave the store untouched. -/
def appendSnapshot (store : SnapshotStore) (s : ValidationSnapshot) :
    SnapshotStore × Except String (String × String) :=
  if (utf8 (serialize s.dump)).length > 10240 then
    (store,
      .error "Snapshot exceeds 10KB; reduce payload size or adjust snapshot fields")
  else if store.exists (s.trip_id, snapshotFilename s) then
    (store, .error "snapshot file already exists")
  else (((s.trip_id, snapshotFilename s), serialize s.dump) :: store,
    .ok (s.trip_id, snapshotFilename s))

/-! ### Snapshot hashing and store theorems -/

/-- Chaining a bind back through `Except.ok`. -/
theorem except_bind_ok {α β : Type} (x : Except String α)
    (f : α → Except String β) (b : β) (h : x >>= f = .ok b) :
    ∃ a, x = .ok a ∧ f a = .ok b := by
  cases x with
  | error e => simp [Bind.bind, Except.bind] at h
  | ok a => exact ⟨a, rfl, by simpa [Bind.bind, Except.bind] using h⟩

/-- Any snapshot that has passed `_set_hashes` satisfies the chain
invariant. -/
theorem chainOk_set_hashes (s : ValidationSnapshot) : chainOk (set_hashes s) := by
  simp [chainOk, set_hashes]

/-- C1: for every successfully constructed `ValidationSnapshot`,
`snapshot_hash` is the SHA-256 digest of the canonical JSON (sorted keys,
compact separators) of exactly the six fields other than `snapshot_hash`
and `chain_hash`, and `chain_hash` is the SHA-256 digest of
`(previous_hash or "") ++ snapshot_hash`. -/
theorem C1_snapshot_hash_formula (trip_id timestamp policy_version : String)
    (input_data : List (String × Json)) (results : List ValidationResult)
    (previous_hash snapshot_hash chain_hash : Option String) :
    (mkValidationSnapshot trip_id timestamp policy_version input_data results
        previous_hash snapshot_hash chain_hash).snapshot_hash =
      some (sha256Hex (utf8 (serialize (.obj
        [("trip_id", .str trip_id),
         ("timestamp", .str timestamp),
         ("policy_version", .str policy_version),
         ("input_data", .obj input_data),
         ("results", .arr (results.map ValidationResult.dump)),
         ("previous_hash", optStr previous_hash)])))) ∧
    (mkValidationSnapshot trip_id timestamp policy_version input_data results
        previous_hash snapshot_hash chain_hash).chain_hash =
      some (sha256Hex (utf8 ((previous_hash.getD "") ++
        sha256Hex (utf8 (serialize (.obj
          [("trip_id", .str trip_id),
           ("timestamp", .str timestamp),
           ("policy_version", .str policy_version),
           ("input_data", .obj input_data),
           ("results", .arr (results.map ValidationResult.dump)),
           ("previous_hash", optStr previous_hash)])))))) := by
  exact ⟨rfl, rfl⟩

/-- C10: hash fields are always recomputed — any snapshot_hash/chain_hash
supplied to the constructor are discarded, every constructed snapshot
satisfies the chain invariant, and every snapshot loaded from disk satisfies
it as well (so the stored hash fields are never trusted on load). -/
theorem C10_hashes_recomputed (trip_id timestamp policy_version : String)
    (input_data : List (String × Json)) (results : List ValidationResult)
    (previous_hash sh ch sh' ch' : Option String) :
    mkValidationSnapshot trip_id timestamp policy_version input_data results
        previous_hash sh ch =
      mkValidationSnapshot trip_id timestamp policy_version input_data results
        previous_hash sh' ch' ∧
    chainOk (mkValidationSnapshot trip_id timestamp policy_version input_data
      results previous_hash sh ch) ∧
    ∀ data : Json, ∀ s : ValidationSnapshot,
      loadSnapshot data = .ok s → chainOk s ∧
        s.snapshot_hash = some (hash_payload (snapshotPayload s)) := by
  refine ⟨rfl, chainOk_set_hashes _, ?_⟩
  intro data s h
  unfold loadSnapshot at h
  obtain ⟨xs, -, h⟩ := except_bind_ok _ _ _ h
  obtain ⟨f1, -, h⟩ := except_bind_ok _ _ _ h
  obtain ⟨a1, -, h⟩ := except_bind_ok _ _ _ h
  obtain ⟨f2, -, h⟩ := except_bind_ok _ _ _ h
  obtain ⟨a2, -, h⟩ := except_bind_ok _ _ _ h
  obtain ⟨f3, -, h⟩ := except_bind_ok _ _ _ h
  obtain ⟨a3, -, h⟩ := except_bind_ok _ _ _ h
  obtain ⟨f4, -, h⟩ := except_bind_ok _ _ _ h
  obtain ⟨a4, -, h⟩ := except_bind_ok _ _ _ h
  obtain ⟨f5, -, h⟩ := except_bind_ok _ _ _ h
  obtain ⟨a5, -, h⟩ := except_bind_ok _ _ _ h
  obtain ⟨a6, -, h⟩ := except_bind_ok _ _ _ h
  obtain ⟨a7, -, h⟩ := except_bind_ok _ _ _ h
  obtain ⟨a8, -, h⟩ := except_bind_ok _ _ _ h
  obtain ⟨a9, -, h⟩ := except_bind_ok _ _ _ h
  cases h
  exact ⟨chainOk_set_hashes _, rfl⟩

/-- C2: `append` rejects an oversize serialized payload (over 10240 UTF-8
bytes) and refuses to overwrite an existing file at the same
`(trip_id, filename)` identity; in either error case the store is unchanged;
otherwise it writes exactly one new file at that identity, leaves every
other identity untouched, and returns the location. -/
theorem C2_append_immutability (store : SnapshotStore) (s : ValidationSnapshot) :
    ((utf8 (serialize s.dump)).length > 10240 ∨
        store.exists (s.trip_id, snapshotFilename s) →
      (appendSnapshot store s).1 = store ∧
        ∀ loc, (appendSnapshot store s).2 ≠ .ok loc) ∧
    (¬(utf8 (serialize s.dump)).length > 10240 →
      ¬store.exists (s.trip_id, snapshotFilename s) →
      (appendSnapshot store s).1 =
          ((s.trip_id, snapshotFilename s), serialize s.dump) :: store ∧
        (appendSnapshot store s).2 = .ok (s.trip_id, snapshotFilename s) ∧
        (appendSnapshot store s).1.read (s.trip_id, snapshotFilename s) =
          some (serialize s.dump) ∧
        ∀ k, k ≠ (s.trip_id, snapshotFilename s) →
          (appendSnapshot store s).1.read k = store.read k) := by
  constructor
  · intro h
    by_cases hsz : (utf8 (serialize s.dump)).length > 10240
    · have he : appendSnapshot store s = (store,
          .error "Snapshot exceeds 10KB; reduce payload size or adjust snapshot fields") := by
        unfold appendSnapshot
        rw [if_pos hsz]
      rw [he]
      exact ⟨rfl, by simp⟩
    · rcases h with h | h
      · exact absurd h hsz
      · have he : appendSnapshot store s =
            (store, .error "snapshot file already exists") := by
          unfold appendSnapshot
          rw [if_neg hsz, if_pos h]
        rw [he]
        exact ⟨rfl, by simp⟩
  · intro hsz hex
    have he : appendSnapshot store s =
        (((s.trip_id, snapshotFilename s), serialize s.dump) :: store,
          .ok (s.trip_id, snapshotFilename s)) := by
      unfold appendSnapshot
      rw [if_neg hsz, if_neg hex]
    rw [he]
    refine ⟨rfl, rfl, by simp [SnapshotStore.read, List.lookup], ?_⟩
    intro k hk
    simp [SnapshotStore.read, List.lookup, beq_eq_false_iff_ne.mpr hk]

set_option maxRecDepth 1000000 in
/-- Witness for C2: on an empty store a small snapshot is accepted and
stored; appending to a store already holding that identity fails and leaves
the store unchanged. -/
theorem C2_append_immutability_witness :
    (appendSnapshot []
        { trip_id := "T1", timestamp := "2024-01-01T00:00:00+00:00"
          policy_version := "pv", input_data := [], results := []
          previous_hash := none, snapshot_hash := some "h"
          chain_hash := some "c" }).2 =
      .ok ("T1", "2024-01-01T00-00-00+00-00.json") ∧
    (appendSnapshot [(("T1", "2024-01-01T00-00-00+00-00.json"), "occupied")]
        { trip_id := "T1", timestamp := "2024-01-01T00:00:00+00:00"
          policy_version := "pv", input_data := [], results := []
          previous_hash := none, snapshot_hash := some "h"
          chain_hash := some "c" }).1 =
      [(("T1", "2024-01-01T00-00-00+00-00.json"), "occupied")] := by
  constructor
  · exact ((C2_append_immutability _ _).2 (by decide) (by decide)).2.1
  · exact ((C2_append_immutability _ _).1 (Or.inr (by decide))).1

/-- Witness for C10: loading a stored snapshot whose hash fields are bogus
succeeds, recomputes the hashes, and the loaded snapshot satisfies the
chain invariant. -/
theorem C10_hashes_recomputed_witness :
    loadSnapshot (.obj
        [("trip_id", .str "T1"),
         ("timestamp", .str "2024-01-01T00:00:00+00:00"),
         ("policy_version", .str "pv"),
         ("input_data", .obj []),
         ("results", .arr []),
         ("previous_hash", .null),
         ("snapshot_hash", .str "forged"),
         ("chain_hash", .str "forged")]) =
      .ok (mkValidationSnapshot "T1" "2024-01-01T00:00:00+00:00" "pv" [] []
        none (some "forged") (some "forged")) ∧
    chainOk (mkValidationSnapshot "T1" "2024-01-01T00:00:00+00:00" "pv" [] []
      none (some "forged") (some "forged")) := by
  refine ⟨rfl, ?_⟩
  exact ((C10_hashes_recomputed "T1" "2024-01-01T00:00:00+00:00" "pv" [] []
    none (some "forged") (some "forged") none none).2.2
      (.obj
        [("trip_id", .str "T1"),
         ("timestamp", .str "2024-01-01T00:00:00+00:00"),
         ("policy_version", .str "pv"),
         ("input_data", .obj []),
         ("results", .arr []),
         ("previous_hash", .null),
         ("snapshot_hash", .str "forged"),
         ("chain_hash", .str "forged")])
      (mkValidationSnapshot "T1" "2024-01-01T00:00:00+00:00" "pv" [] []
        none (some "forged") (some "forged"))
      (by rfl)).1

/-! ## Policy-lite rule engine (`policy.py`) -/

/-- ASCII lowercasing of a string (Python `.lower()`; the configured cabin
classes and keywords under study are ASCII). -/
def strLower (s : String) : String := String.mk (s.data.map Char.toLower)

/-- `needle` occurs at the start of `hay`. -/
def atStart : List Char → List Char → Bool
  | [], _ => true
  | _ :: _, [] => false
  | a :: as, b :: bs => a = b && atStart as bs

/-- Python `needle in hay` substring containment. -/
def containsSub (needle hay : List Char) : Bool :=
  atStart needle hay ||
    match hay with
    | [] => false
    | _ :: t => containsSub needle t

/-- Sort a list of strings (`sorted(...)` in messages). -/
def sortStrings (l : List String) : List String :=
  l.insertionSort fun a b => strLe a b = true

instance (a b : String) : Decidable (strLe a b = true) :=
  inferInstanceAs (Decidable (_ = true))

/-- Python `str(list_of_strings)` as used in rule messages. -/
def pyStrList (l : List String) : String :=
  "[" ++ ", ".intercalate (l.map fun s => "\x27" ++ s ++ "\x27") ++ "]"

/-- `ExpenseItem` as the policy rules consume it: only `description` is read
by any policy-lite rule; the other fields are carried for fidelity. -/
structure ExpenseItem where
  category : String
  description : String
  amount : Int
deriving DecidableEq

/-- `PolicyResult`: the structured result of one policy-lite rule. -/
structure PolicyResult where
  rule_id : String
  severity : String
  passed : Bool
  message : String
deriving DecidableEq

/-- `PolicyContext`: the optional-field bag the engine evaluates.  Dates are
day ordinals, money amounts integers, float-valued fields rationals. -/
structure PolicyContext where
  booking_date : Option Int := none
  departure_date : Option Int := none
  return_date : Option Int := none
  selected_fare : Option Int := none
  lowest_fare : Option Int := none
  cabin_class : Option String := none
  flight_duration_hours : Option Rat := none
  fare_evidence_attached : Option Bool := none
  driving_cost : Option Int := none
  flight_cost : Option Int := none
  comparable_hotels : Option (List Int) := none
  distance_from_office_miles : Option Rat := none
  overnight_stay : Option Bool := none
  meals_provided : Option Bool := none
  meal_per_diem_requested : Option Bool := none
  expenses : Option (List ExpenseItem) := none
  third_party_payments : Option (List (List (String × Json))) := none

/-- `PolicyRule._result`: a passing result is downgraded to `info` severity;
the configured severity is reported only on failure. -/
def mkResult (rule_id severity : String) (passed : Bool) (message : String) :
    PolicyResult :=
  { rule_id := rule_id
    severity := if passed then "info" else severity
    passed := passed
    message := message }

/-- The ten policy-lite rule variants with their configured parameters
(`severity` is the plain string the source carries). -/
inductive PolicyRule where
  | advance_booking (days_required : Int) (severity : String)
  | fare_comparison (max_over_lowest : Int) (severity : String)
  | cabin_class (long_haul_hours : Rat) (allowed_classes : List String)
      (severity : String)
  | fare_evidence (severity : String)
  | driving_vs_flying (severity : String)
  | hotel_comparison (minimum_alternatives : Int) (severity : String)
  | local_overnight (min_distance_miles : Rat) (severity : String)
  | meal_per_diem (severity : String)
  | non_reimbursable (blocked_keywords : List String) (severity : String)
  | third_party_paid (severity : String)
deriving DecidableEq

/-- `AdvanceBookingRule.evaluate`. -/
def evalAdvanceBooking (days_required : Int) (severity : String)
    (ctx : PolicyContext) : PolicyResult :=
  match ctx.booking_date, ctx.departure_date with
  | some booking, some departure =>
      let days_notice := departure - booking
      if days_notice < days_required then
        mkResult "advance_booking" severity false
          ("Bookings should be made at least " ++ toString days_required ++
            " days in advance; only " ++ toString days_notice ++
            " days provided.")
      else
        mkResult "advance_booking" severity true
          ("Booked " ++ toString days_notice ++ " days in advance (minimum " ++
            toString days_required ++ ").")
  | _, _ =>
      mkResult "advance_booking" severity true
        "Advance booking check skipped due to missing dates"

/-- `FareComparisonRule.evaluate`. -/
def evalFareComparison (max_over_lowest : Int) (severity : String)
    (ctx : PolicyContext) : PolicyResult :=
  match ctx.selected_fare, ctx.lowest_fare with
  | some selected, some lowest =>
      let overage := selected - lowest
      if overage > max_over_lowest then
        mkResult "fare_comparison" severity false
          ("Selected fare exceeds lowest available by " ++ toString overage ++
            " which is above the " ++ toString max_over_lowest ++
            " allowable threshold.")
      else
        mkResult "fare_comparison" severity true
          ("Fare within " ++ toString max_over_lowest ++ " of lowest available.")
  | _, _ =>
      mkResult "fare_comparison" severity true
        "Fare comparison skipped due to missing fare data"

/-- `CabinClassRule.evaluate` (the rule stores its allow-list lowercased). -/
def evalCabinClass (long_haul_hours : Rat) (allowed_classes : List String)
    (severity : String) (ctx : PolicyContext) : PolicyResult :=
  match ctx.cabin_class, ctx.flight_duration_hours with
  | some cabin_raw, some duration =>
      let cabin := strLower cabin_raw
      if duration ≤ long_haul_hours ∧ ¬allowed_classes.contains cabin then
        mkResult "cabin_class" severity false
          ("Flights under " ++ toString long_haul_hours ++
            " hours must use allowed cabins " ++
            pyStrList (sortStrings allowed_classes) ++ "; requested \x27" ++
            cabin_raw ++ "\x27.")
      else
        mkResult "cabin_class" severity true
          ("Cabin \x27" ++ cabin_raw ++ "\x27 acceptable for " ++
            toString duration ++ " hour flight.")
  | _, _ =>
      mkResult "cabin_class" severity true
        "Cabin class check skipped due to missing flight details"

/-- `FareEvidenceRule.evaluate`: truthiness of the optional bool — `None`
and `False` both fail the check. -/
def evalFareEvidence (severity : String) (ctx : PolicyContext) : PolicyResult :=
  if ctx.fare_evidence_attached = some true then
    mkResult "fare_evidence" severity true "Fare evidence attached"
  else
    mkResult "fare_evidence" severity false
      "Screenshot or fare evidence must be attached to the request."

/-- `DrivingVsFlyingRule.evaluate`. -/
def evalDrivingVsFlying (severity : String) (ctx : PolicyContext) :
    PolicyResult :=
  match ctx.driving_cost, ctx.flight_cost with
  | some driving, some flight =>
      if driving > flight then
        mkResult "driving_vs_flying" severity false
          ("Driving estimate " ++ toString driving ++
            " exceeds flight estimate " ++ toString flight ++
            "; reimbursement will be limited to the lesser cost.")
      else
        mkResult "driving_vs_flying" severity true
          "Driving is lower or equal cost compared to flying."
  | _, _ =>
      mkResult "driving_vs_flying" severity true
        "Driving vs flying comparison skipped due to missing estimates"

/-- `HotelComparisonRule.evaluate`: a missing list counts as zero
alternatives and fails the minimum. -/
def evalHotelComparison (minimum_alternatives : Int) (severity : String)
    (ctx : PolicyContext) : PolicyResult :=
  let alternatives := ctx.comparable_hotels.getD []
  if (alternatives.length : Int) < minimum_alternatives then
    mkResult "hotel_comparison" severity false
      ("Provide at least " ++ toString minimum_alternatives ++
        " comparable hotel rates; " ++ toString alternatives.length ++
        " supplied.")
  else
    mkResult "hotel_comparison" severity true
      (toString alternatives.length ++ " comparable hotels provided (minimum " ++
        toString minimum_alternatives ++ ").")

/-- `LocalOvernightRule.evaluate`. -/
def evalLocalOvernight (min_distance_miles : Rat) (severity : String)
    (ctx : PolicyContext) : PolicyResult :=
  if ¬ctx.overnight_stay = some true then
    mkResult "local_overnight" severity true "No overnight stay requested"
  else
    match ctx.distance_from_office_miles with
    | none =>
        mkResult "local_overnight" severity true
          "Local overnight check skipped due to missing distance data"
    | some distance =>
        if distance < min_distance_miles then
          mkResult "local_overnight" severity false
            ("Overnight stays within " ++ toString min_distance_miles ++
              " miles require waiver; distance is " ++ toString distance ++
              " miles.")
        else
          mkResult "local_overnight" severity true
            ("Overnight stay is " ++ toString distance ++
              " miles from office (minimum " ++ toString min_distance_miles ++
              ").")

/-- `MealPerDiemRule.evaluate`. -/
def evalMealPerDiem (severity : String) (ctx : PolicyContext) : PolicyResult :=
  if ctx.meals_provided = some true ∧ ctx.meal_per_diem_requested = some true then
    mkResult "meal_per_diem" severity false
      "Meal per diem should exclude conference-provided meals; adjust the request accordingly."
  else
    mkResult "meal_per_diem" severity true
      "Meal per diem request aligns with provided meals."

/-- First expense whose lowered description contains a blocked keyword
(the rule stores its keywords lowercased). -/
def findBlocked (blocked : List String) : List ExpenseItem → Option ExpenseItem
  | [] => none
  | e :: es =>
      if blocked.any fun kw => containsSub kw.data (strLower e.description).data
      then some e
      else findBlocked blocked es

/-- `NonReimbursableRule.evaluate`. -/
def evalNonReimbursable (blocked_keywords : List String) (severity : String)
    (ctx : PolicyContext) : PolicyResult :=
  match findBlocked blocked_keywords (ctx.expenses.getD []) with
  | some e =>
      mkResult "non_reimbursable" severity false
        ("Expense \x27" ++ e.description ++
          "\x27 includes non-reimbursable items (" ++
          ", ".intercalate (sortStrings blocked_keywords) ++ ").")
  | none =>
      mkResult "non_reimbursable" severity true
        "No non-reimbursable items detected."

/-- Python truthiness of a decoded JSON value (`bool(...)`). -/
def jsonTruthy : Json → Bool
  | .null => false
  | .bool b => b
  | .num n => if n = 0 then false else true
  | .str s => if s = "" then false else true
  | .arr xs => !xs.isEmpty
  | .obj xs => !xs.isEmpty

/-- Python `str(...)` of a decoded JSON value as used in the third-party
message (strings pass through; other shapes are rendered). -/
def pyStr : Json → String
  | .str s => s
  | j => serialize j

/-- First third-party payment dict that is not itemized. -/
def findUnitemized :
    List (List (String × Json)) → Option (List (String × Json))
  | [] => none
  | p :: ps =>
      if jsonTruthy ((p.lookup "itemized").getD .null) then findUnitemized ps
      else some p

/-- `ThirdPartyPaidRule.evaluate`. -/
def evalThirdPartyPaid (severity : String) (ctx : PolicyContext) :
    PolicyResult :=
  match findUnitemized (ctx.third_party_payments.getD []) with
  | some p =>
      mkResult "third_party_paid" severity false
        ("Third-party payment \x27" ++
          pyStr ((p.lookup "description").getD (.str "third-party payment")) ++
          "\x27 must be itemized and excluded from reimbursement.")
  | none =>
      mkResult "third_party_paid" severity true
        "Third-party payments are properly itemized or none provided."

/-- Dispatch `rule.evaluate(context)` over the rule variants. -/
def PolicyRule.evaluate : PolicyRule → PolicyContext → PolicyResult
  | .advance_booking d sev, ctx => evalAdvanceBooking d sev ctx
  | .fare_comparison m sev, ctx => evalFareComparison m sev ctx
  | .cabin_class h cls sev, ctx => evalCabinClass h cls sev ctx
  | .fare_evidence sev, ctx => evalFareEvidence sev ctx
  | .driving_vs_flying sev, ctx => evalDrivingVsFlying sev ctx
  | .hotel_comparison m sev, ctx => evalHotelComparison m sev ctx
  | .local_overnight d sev, ctx => evalLocalOvernight d sev ctx
  | .meal_per_diem sev, ctx => evalMealPerDiem sev ctx
  | .non_reimbursable kws sev, ctx => evalNonReimbursable kws sev ctx
  | .third_party_paid sev, ctx => evalThirdPartyPaid sev ctx

/-- `PolicyEngine`: an ordered list of configured rules. -/
structure PolicyEngine where
  rules : List PolicyRule
deriving DecidableEq

/-- `PolicyEngine.validate`: evaluate every rule in registration order. -/
def PolicyEngine.validate (engine : PolicyEngine) (ctx : PolicyContext) :
    List PolicyResult :=
  engine.rules.map fun rule => rule.evaluate ctx

/-- `PolicyEngine.blocking_results`: the failed blocking results. -/
def PolicyEngine.blocking_results (engine : PolicyEngine)
    (ctx : PolicyContext) : List PolicyResult :=
  (engine.validate ctx).filter fun result =>
    result.severity == "blocking" && !result.passed

/-! ### Rule engine theorems -/

/-- A `_result` that passed carries `info` severity. -/
theorem mkResult_passed_info (i sev : String) (p : Bool) (m : String)
    (hp : (mkResult i sev p m).passed = true) :
    (mkResult i sev p m).severity = "info" := by
  cases p
  · simp [mkResult] at hp
  · simp [mkResult]

/-- Every branch of every rule variant returns through `_result`. -/
theorem evaluate_shape (rule : PolicyRule) (ctx : PolicyContext) :
    ∃ i sv p m, rule.evaluate ctx = mkResult i sv p m := by
  cases rule <;>
    (dsimp only [PolicyRule.evaluate, evalAdvanceBooking, evalFareComparison,
      evalCabinClass, evalFareEvidence, evalDrivingVsFlying,
      evalHotelComparison, evalLocalOvernight, evalMealPerDiem,
      evalNonReimbursable, evalThirdPartyPaid]) <;>
    (repeat' split) <;>
    exact ⟨_, _, _, _, rfl⟩

/-- Every branch of every rule goes through `_result`, so a passing result
is reported at `info` severity whatever the configured severity. -/
theorem evaluate_passed_info (rule : PolicyRule) (ctx : PolicyContext)
    (h : (rule.evaluate ctx).passed = true) :
    (rule.evaluate ctx).severity = "info" := by
  obtain ⟨i, sv, p, m, he⟩ := evaluate_shape rule ctx
  rw [he] at h ⊢
  exact mkResult_passed_info _ _ _ _ h

/-- C8: `validate` returns exactly one result per configured rule in
registration order; every passing result carries `info` severity; and
`blocking_results` is exactly the failed results whose reported severity is
`blocking`. -/
theorem C8_validate_shape (rules : List PolicyRule) (ctx : PolicyContext) :
    (PolicyEngine.validate ⟨rules⟩ ctx).length = rules.length ∧
    (∀ i : Nat, (PolicyEngine.validate ⟨rules⟩ ctx)[i]? =
      (rules[i]?).map fun rule => rule.evaluate ctx) ∧
    (∀ r ∈ PolicyEngine.validate ⟨rules⟩ ctx,
      r.passed = true → r.severity = "info") ∧
    PolicyEngine.blocking_results ⟨rules⟩ ctx =
      (PolicyEngine.validate ⟨rules⟩ ctx).filter fun result =>
        result.severity == "blocking" && !result.passed := by
  refine ⟨by simp [PolicyEngine.validate], ?_, ?_, rfl⟩
  · intro i
    simp [PolicyEngine.validate]
  · intro r hr hp
    obtain ⟨rule, -, rfl⟩ := List.mem_map.mp hr
    exact evaluate_passed_info rule ctx hp

/-- Witness for C8: a two-rule engine where one rule passes and one fails;
the passing result reports `info` although the rule is configured
`blocking`, and `blocking_results` contains exactly the failure. -/
theorem C8_validate_shape_witness :
    (PolicyEngine.validate
        ⟨[.fare_evidence "blocking", .meal_per_diem "advisory"]⟩
        { fare_evidence_attached := some true }).length = 2 ∧
    ((PolicyRule.fare_evidence "blocking").evaluate
        { fare_evidence_attached := some true }).severity = "info" := by
  constructor
  · exact (C8_validate_shape [.fare_evidence "blocking", .meal_per_diem "advisory"]
      { fare_evidence_attached := some true }).1
  · exact (C8_validate_shape [.fare_evidence "blocking", .meal_per_diem "advisory"]
      { fare_evidence_attached := some true }).2.2.1 _ (by decide) (by decide)

/-- Counterexample for C4: with all context fields absent, the
fare-evidence rule and the hotel-comparison rule report failures at their
configured severities — they do not skip with a passing `info` result. -/
theorem C4_counterexample :
    ((PolicyRule.fare_evidence "blocking").evaluate {}).passed = false ∧
    ((PolicyRule.fare_evidence "blocking").evaluate {}).severity = "blocking" ∧
    ((PolicyRule.hotel_comparison 2 "advisory").evaluate {}).passed = false ∧
    ((PolicyRule.hotel_comparison 2 "advisory").evaluate {}).severity =
      "advisory" := by
  decide

/-- C4 amended: all rule variants except `fare_evidence` and
`hotel_comparison` return a passing `info` result with an explanatory
message when their required context fields are absent; those two variants
treat missing input as a failing check (see the counterexample). -/
theorem C4_amended_missing_input_skips (ctx : PolicyContext) (sev : String) :
    (∀ d, ctx.booking_date = none ∨ ctx.departure_date = none →
      (PolicyRule.advance_booking d sev).evaluate ctx =
        mkResult "advance_booking" sev true
          "Advance booking check skipped due to missing dates") ∧
    (∀ m, ctx.selected_fare = none ∨ ctx.lowest_fare = none →
      (PolicyRule.fare_comparison m sev).evaluate ctx =
        mkResult "fare_comparison" sev true
          "Fare comparison skipped due to missing fare data") ∧
    (∀ h cls, ctx.cabin_class = none ∨ ctx.flight_duration_hours = none →
      (PolicyRule.cabin_class h cls sev).evaluate ctx =
        mkResult "cabin_class" sev true
          "Cabin class check skipped due to missing flight details") ∧
    (ctx.driving_cost = none ∨ ctx.flight_cost = none →
      (PolicyRule.driving_vs_flying sev).evaluate ctx =
        mkResult "driving_vs_flying" sev true
          "Driving vs flying comparison skipped due to missing estimates") ∧
    (∀ d, ctx.overnight_stay = none →
      (PolicyRule.local_overnight d sev).evaluate ctx =
        mkResult "local_overnight" sev true "No overnight stay requested") ∧
    (∀ d, ctx.overnight_stay = some true →
      ctx.distance_from_office_miles = none →
      (PolicyRule.local_overnight d sev).evaluate ctx =
        mkResult "local_overnight" sev true
          "Local overnight check skipped due to missing distance data") ∧
    (ctx.meals_provided = none ∨ ctx.meal_per_diem_requested = none →
      (PolicyRule.meal_per_diem sev).evaluate ctx =
        mkResult "meal_per_diem" sev true
          "Meal per diem request aligns with provided meals.") ∧
    (∀ kws, ctx.expenses = none →
      (PolicyRule.non_reimbursable kws sev).evaluate ctx =
        mkResult "non_reimbursable" sev true
          "No non-reimbursable items detected.") ∧
    (ctx.third_party_payments = none →
      (PolicyRule.third_party_paid sev).evaluate ctx =
        mkResult "third_party_paid" sev true
          "Third-party payments are properly itemized or none provided.") := by
  refine ⟨?_, ?_, ?_, ?_, ?_, ?_, ?_, ?_, ?_⟩
  · intro d h
    rcases h with h | h
    · cases hd : ctx.departure_date <;>
        simp [PolicyRule.evaluate, evalAdvanceBooking, h, hd]
    · cases hb : ctx.booking_date <;>
        simp [PolicyRule.evaluate, evalAdvanceBooking, h, hb]
  · intro m h
    rcases h with h | h
    · cases hl : ctx.lowest_fare <;>
        simp [PolicyRule.evaluate, evalFareComparison, h, hl]
    · cases hs : ctx.selected_fare <;>
        simp [PolicyRule.evaluate, evalFareComparison, h, hs]
  · intro hh cls h
    rcases h with h | h
    · cases hd : ctx.flight_duration_hours <;>
        simp [PolicyRule.evaluate, evalCabinClass, h, hd]
    · cases hc : ctx.cabin_class <;>
        simp [PolicyRule.evaluate, evalCabinClass, h, hc]
  · intro h
    rcases h with h | h
    · cases hf : ctx.flight_cost <;>
        simp [PolicyRule.evaluate, evalDrivingVsFlying, h, hf]
    · cases hd : ctx.driving_cost <;>
        simp [PolicyRule.evaluate, evalDrivingVsFlying, h, hd]
  · intro d h
    simp [PolicyRule.evaluate, evalLocalOvernight, h]
  · intro d h hd
    simp [PolicyRule.evaluate, evalLocalOvernight, h, hd]
  · intro h
    rcases h with h | h <;> simp [PolicyRule.evaluate, evalMealPerDiem, h]
  · intro kws h
    simp [PolicyRule.evaluate, evalNonReimbursable, h, findBlocked]
  · intro h
    simp [PolicyRule.evaluate, evalThirdPartyPaid, h, findUnitemized]

/-- Witness for C4 (amended): two of the skipping variants applied to the
empty context. -/
theorem C4_amended_missing_input_skips_witness :
    (PolicyRule.advance_booking 14 "advisory").evaluate {} =
      mkResult "advance_booking" "advisory" true
        "Advance booking check skipped due to missing dates" ∧
    (PolicyRule.meal_per_diem "advisory").evaluate {} =
      mkResult "meal_per_diem" "advisory" true
        "Meal per diem request aligns with provided meals." := by
  constructor
  · exact (C4_amended_missing_input_skips {} "advisory").1 14 (Or.inl rfl)
  · exact (C4_amended_missing_input_skips {} "advisory").2.2.2.2.2.2.1
      (Or.inl rfl)

/-! ## Approval state machine and exception escalation (`models.py`) -/

/-- `TripStatus` values. -/
inductive TripStatus where
  | draft | submitted | approved | rejected | completed
deriving DecidableEq

/-- `ApprovalOutcome` values. -/
inductive ApprovalOutcome where
  | approved | rejected | flagged | overridden
deriving DecidableEq

/-- `ApprovalEvent`: immutable audit record of one decision.  Timestamps are
integer seconds. -/
structure ApprovalEvent where
  approver_id : String
  level : String
  outcome : ApprovalOutcome
  timestamp : Int
  justification : Option String
  previous_status : TripStatus
  new_status : TripStatus
deriving DecidableEq

/-- Python falsiness of the optional justification: `None` or `""`. -/
def justificationBlank : Option String → Bool
  | none => true
  | some s => s = ""

/-- `ApprovalEvent.model_post_init`: constructing an event with
`outcome == OVERRIDDEN` and a falsy justification raises. -/
def mkApprovalEvent (approver_id level : String) (outcome : ApprovalOutcome)
    (timestamp : Int) (justification : Option String)
    (previous_status new_status : TripStatus) :
    Except String ApprovalEvent :=
  if outcome = .overridden ∧ justificationBlank justification then
    .error "Override decisions require justification text"
  else
    .ok { approver_id := approver_id, level := level, outcome := outcome
          timestamp := timestamp, justification := justification
          previous_status := previous_status, new_status := new_status }

/-- The slice of `TripPlan` state that `record_approval_decision` touches. -/
structure TripPlan where
  trip_id : String
  status : TripStatus
  approval_history : List ApprovalEvent
deriving DecidableEq

/-- The fixed outcome-to-status mapping of `record_approval_decision`. -/
def statusAfter (_current : TripStatus) (outcome : ApprovalOutcome) : TripStatus :=
  match outcome with
  | .approved => .approved
  | .overridden => .approved
  | .rejected => .rejected
  | .flagged => .submitted

/-- `TripPlan.record_approval_decision` (without the optional snapshot-store
coupling): checks the override invariant before any mutation, computes the
new status, appends one event and updates the status.  An error returns the
plan unchanged. -/
def record_approval_decision (plan : TripPlan) (approver_id level : String)
    (outcome : ApprovalOutcome) (justification : Option String)
    (timestamp : Int) : TripPlan × Except String ApprovalEvent :=
  if outcome = .overridden ∧ justificationBlank justification then
    (plan, .error "Override decisions require justification text")
  else
    let new_status := statusAfter plan.status outcome
    let event : ApprovalEvent :=
      { approver_id := approver_id, level := level, outcome := outcome
        timestamp := timestamp, justification := justification
        previous_status := plan.status, new_status := new_status }
    ({ plan with approval_history := plan.approval_history ++ [event]
                 status := new_status }, .ok event)

/-- C5: constructing an `ApprovalEvent` with `outcome = overridden` and an
empty or missing justification always raises; with a non-empty
justification it always succeeds; and `record_approval_decision` rejects an
unjustified override before any mutation, leaving history and status
untouched. -/
theorem C5_override_requires_justification (approver_id level : String)
    (timestamp : Int) (previous_status new_status : TripStatus)
    (plan : TripPlan) :
    (∀ j, justificationBlank j = true →
      ∀ e, mkApprovalEvent approver_id level .overridden timestamp j
        previous_status new_status ≠ .ok e) ∧
    (∀ s, s ≠ "" →
      mkApprovalEvent approver_id level .overridden timestamp (some s)
        previous_status new_status =
      .ok { approver_id := approver_id, level := level, outcome := .overridden
            timestamp := timestamp, justification := some s
            previous_status := previous_status, new_status := new_status }) ∧
    (∀ j, justificationBlank j = true →
      (record_approval_decision plan approver_id level .overridden j
          timestamp).1 = plan ∧
      ∀ e, (record_approval_decision plan approver_id level .overridden j
          timestamp).2 ≠ .ok e) := by
  refine ⟨?_, ?_, ?_⟩
  · intro j hj e
    simp [mkApprovalEvent, hj]
  · intro s hs
    have : justificationBlank (some s) = false := by
      simp [justificationBlank, hs]
    simp [mkApprovalEvent, this]
  · intro j hj
    constructor
    · simp [record_approval_decision, hj]
    · intro e
      simp [record_approval_decision, hj]

/-- Witness for C5: a blank override is rejected without mutating the plan;
a justified override succeeds. -/
theorem C5_override_requires_justification_witness :
    (record_approval_decision
        { trip_id := "T1", status := .submitted, approval_history := [] }
        "mgr" "manager" .overridden none 0).1 =
      { trip_id := "T1", status := .submitted, approval_history := [] } ∧
    mkApprovalEvent "mgr" "manager" .overridden 0 (some "client emergency")
        .submitted .approved =
      .ok { approver_id := "mgr", level := "manager", outcome := .overridden
            timestamp := 0, justification := some "client emergency"
            previous_status := .submitted, new_status := .approved } := by
  constructor
  · exact ((C5_override_requires_justification "mgr" "manager" 0 .submitted
      .approved { trip_id := "T1", status := .submitted, approval_history := [] }
      ).2.2 none (by decide)).1
  · exact (C5_override_requires_justification "mgr" "manager" 0 .submitted
      .approved { trip_id := "T1", status := .submitted, approval_history := [] }
      ).2.1 "client emergency" (by decide)

/-- `ExceptionApprovalLevel` values, in escalation order. -/
inductive ExceptionApprovalLevel where
  | manager | director | board
deriving DecidableEq

/-- `ExceptionStatus` values. -/
inductive ExceptionStatus where
  | pending | approved | rejected | escalated
deriving DecidableEq

/-- `_next_level`: step one position up the level list, capped at the last
level (`board`). -/
def next_level : ExceptionApprovalLevel → ExceptionApprovalLevel
  | .manager => .director
  | .director => .board
  | .board => .board

/-- `_ESCALATION_WINDOW = timedelta(hours=48)`, in seconds. -/
def escalationWindow : Int := 48 * 60 * 60

/-- The slice of `ExceptionRequest` state that `escalate_if_overdue`
touches; timestamps are integer seconds. -/
structure ExceptionRequest where
  status : ExceptionStatus
  approval_level : Option ExceptionApprovalLevel
  requested_at : Int
  escalated_at : Option Int
deriving DecidableEq

/-- `ExceptionRequest.escalate_if_overdue(reference_time)`: only pending or
escalated requests are touched; the age anchor is `escalated_at` if ever
escalated, else `requested_at`; below the window nothing changes; otherwise
status becomes escalated, `escalated_at` is stamped with the reference time
and the approval level steps up one (capped at board). -/
def escalate_if_overdue (req : ExceptionRequest) (reference_time : Int) :
    ExceptionRequest × Bool :=
  if req.status ≠ .pending ∧ req.status ≠ .escalated then
    (req, false)
  else
    let anchor := req.escalated_at.getD req.requested_at
    if reference_time - anchor < escalationWindow then
      (req, false)
    else
      ({ req with status := .escalated
                  escalated_at := some reference_time
                  approval_level :=
                    some (next_level (req.approval_level.getD .manager)) },
        true)

/-- Counterexample for C6: a pending request at board level whose age equals
the window exactly.  The code escalates although the age does not *exceed*
48 hours, and the level stays at board instead of rising by one. -/
theorem C6_counterexample :
    (escalate_if_overdue
        { status := .pending, approval_level := some .board
          requested_at := 0, escalated_at := none } 172800).2 = true ∧
    ¬((172800 : Int) - 0 > escalationWindow) ∧
    (escalate_if_overdue
        { status := .pending, approval_level := some .board
          requested_at := 0, escalated_at := none } 172800).1.approval_level =
      some .board := by
  refine ⟨by decide, by decide, by decide⟩

/-- C6 amended: for pending/escalated requests, `escalate_if_overdue`
escalates exactly when the age since `escalated_at` (or `requested_at`)
is at least the 48-hour window; on escalation it sets the status to
escalated, stamps `escalated_at` with the reference time and steps the
approval level up one, capped at board; a second call within the window of
the first escalation changes nothing; approved/rejected requests are never
modified. -/
theorem C6_escalation_amended (req : ExceptionRequest) (t t2 : Int) :
    (req.status = .approved ∨ req.status = .rejected →
      escalate_if_overdue req t = (req, false)) ∧
    (req.status = .pending ∨ req.status = .escalated →
      ((escalate_if_overdue req t).2 = true ↔
        escalationWindow ≤ t - req.escalated_at.getD req.requested_at)) ∧
    (req.status = .pending ∨ req.status = .escalated →
      escalationWindow ≤ t - req.escalated_at.getD req.requested_at →
      (escalate_if_overdue req t).1 =
        { req with status := .escalated
                   escalated_at := some t
                   approval_level :=
                     some (next_level (req.approval_level.getD .manager)) }) ∧
    ((escalate_if_overdue req t).2 = true →
      t2 - t < escalationWindow →
      escalate_if_overdue (escalate_if_overdue req t).1 t2 =
        ((escalate_if_overdue req t).1, false)) := by
  refine ⟨?_, ?_, ?_, ?_⟩
  · intro h
    have hc : req.status ≠ .pending ∧ req.status ≠ .escalated := by
      rcases h with h | h <;> rw [h] <;> exact ⟨by decide, by decide⟩
    simp [escalate_if_overdue, hc]
  · intro h
    have hc : ¬(req.status ≠ .pending ∧ req.status ≠ .escalated) := by
      rcases h with h | h <;> simp [h]
    by_cases hw : t - req.escalated_at.getD req.requested_at < escalationWindow
    · simp [escalate_if_overdue, hc, hw]
    · simp [escalate_if_overdue, hc, hw]
      omega
  · intro h hov
    have hc : ¬(req.status ≠ .pending ∧ req.status ≠ .escalated) := by
      rcases h with h | h <;> simp [h]
    have hw : ¬(t - req.escalated_at.getD req.requested_at < escalationWindow) :=
      by omega
    simp [escalate_if_overdue, hc, hw]
  · intro h1 h2
    by_cases hc : req.status ≠ .pending ∧ req.status ≠ .escalated
    · simp [escalate_if_overdue, hc] at h1
    · by_cases hw : t - req.escalated_at.getD req.requested_at < escalationWindow
      · simp [escalate_if_overdue, hc, hw] at h1
      · have hfst : (escalate_if_overdue req t).1 =
            { req with status := .escalated
                       escalated_at := some t
                       approval_level :=
                         some (next_level (req.approval_level.getD .manager)) } := by
          simp [escalate_if_overdue, hc, hw]
        rw [hfst]
        simp [escalate_if_overdue, h2]

/-- Witness for C6 (amended): a pending manager-level request aged exactly
48 hours escalates to director, and a re-check 100 seconds later does
nothing. -/
theorem C6_escalation_amended_witness :
    (escalate_if_overdue
        { status := .pending, approval_level := some .manager
          requested_at := 0, escalated_at := none } 172800).1 =
      { status := .escalated, approval_level := some .director
        requested_at := 0, escalated_at := some 172800 } ∧
    escalate_if_overdue
        ((escalate_if_overdue
          { status := .pending, approval_level := some .manager
            requested_at := 0, escalated_at := none } 172800).1) 172900 =
      ((escalate_if_overdue
        { status := .pending, approval_level := some .manager
          requested_at := 0, escalated_at := none } 172800).1, false) := by
  constructor
  · exact (C6_escalation_amended
      { status := .pending, approval_level := some .manager
        requested_at := 0, escalated_at := none } 172800 172900).2.2.1
      (Or.inl rfl) (by decide)
  · exact (C6_escalation_amended
      { status := .pending, approval_level := some .manager
        requested_at := 0, escalated_at := none } 172800 172900).2.2.2
      (by decide) (by decide)

/-! ## Policy versioning (`policy_versioning.py`): hash stability -/

theorem lexLt_irrefl : ∀ x : List Char, lexLt x x = false := by
  intro x
  induction x with
  | nil => rfl
  | cons a t ih => simp [lexLt, ih]

theorem lexLt_asymm : ∀ x y, lexLt x y = true → lexLt y x = false := by
  intro x
  induction x with
  | nil =>
      intro y h
      cases y with
      | nil => simp [lexLt] at h
      | cons b u => simp [lexLt]
  | cons a t ih =>
      intro y h
      cases y with
      | nil => simp [lexLt] at h
      | cons b u =>
          simp only [lexLt] at h ⊢
          by_cases h1 : a.toNat < b.toNat
          · have h2 : ¬b.toNat < a.toNat := by omega
            simp [h1, h2]
          · by_cases h2 : b.toNat < a.toNat
            · simp [h1, h2] at h
            · simp only [h1, h2, if_false] at h ⊢
              simp [ih u h]

theorem eq_of_not_lexLt :
    ∀ x y, lexLt x y = false → lexLt y x = false → x = y := by
  intro x
  induction x with
  | nil =>
      intro y h1 _
      cases y with
      | nil => rfl
      | cons b u => simp [lexLt] at h1
  | cons a t ih =>
      intro y h1 h2
      cases y with
      | nil => simp [lexLt] at h2
      | cons b u =>
          simp only [lexLt] at h1 h2
          by_cases hab : a.toNat < b.toNat
          · simp [hab] at h1
          · by_cases hba : b.toNat < a.toNat
            · simp [hba] at h2
            · have hn : a.toNat = b.toNat := by omega
              have hc : a = b := by
                have := congrArg Char.ofNat hn
                simpa [Char.ofNat_toNat] using this
              simp only [hab, hba, if_false] at h1 h2
              rw [hc, ih u h1 h2]

theorem lexLt_trans :
    ∀ x y z, lexLt x y = true → lexLt y z = true → lexLt x z = true := by
  intro x
  induction x with
  | nil =>
      intro y z hxy hyz
      cases y with
      | nil => simp [lexLt] at hxy
      | cons b u =>
          cases z with
          | nil => simp [lexLt] at hyz
          | cons c v => simp [lexLt]
  | cons a t ih =>
      intro y z hxy hyz
      cases y with
      | nil => simp [lexLt] at hxy
      | cons b u =>
          cases z with
          | nil => simp [lexLt] at hyz
          | cons c v =>
              simp only [lexLt] at hxy hyz ⊢
              by_cases h1 : a.toNat < b.toNat
              · by_cases h2 : b.toNat < c.toNat
                · have : a.toNat < c.toNat := by omega
                  simp [this]
                · by_cases h3 : c.toNat < b.toNat
                  · simp [h2, h3] at hyz
                  · have : a.toNat < c.toNat := by omega
                    simp [this]
              · by_cases h3 : b.toNat < a.toNat
                · simp [h1, h3] at hxy
                · by_cases h2 : b.toNat < c.toNat
                  · have : a.toNat < c.toNat := by omega
                    simp [this]
                  · by_cases h4 : c.toNat < b.toNat
                    · simp [h2, h4] at hyz
                    · have hac : ¬a.toNat < c.toNat := by omega
                      have hca : ¬c.toNat < a.toNat := by omega
                      simp [h1, h3] at hxy
                      simp [h2, h4] at hyz
                      simp [hac, hca]
                      exact ih u v hxy hyz

theorem strLe_total (a b : String) : strLe a b = true ∨ strLe b a = true := by
  unfold strLe
  by_cases h : lexLt b.data a.data = true
  · right
    simp [lexLt_asymm _ _ h]
  · left
    simp [Bool.not_eq_true] at h
    simp [h]

theorem strLe_antisymm (a b : String) (h1 : strLe a b = true)
    (h2 : strLe b a = true) : a = b := by
  unfold strLe at h1 h2
  simp only [Bool.not_eq_true'] at h1 h2
  have hd := eq_of_not_lexLt a.data b.data h2 h1
  cases a with
  | mk d1 =>
      cases b with
      | mk d2 =>
          have hdd : d1 = d2 := by simpa using hd
          rw [hdd]

theorem strLe_trans (a b c : String) (h1 : strLe a b = true)
    (h2 : strLe b c = true) : strLe a c = true := by
  unfold strLe at h1 h2 ⊢
  simp only [Bool.not_eq_true'] at h1 h2 ⊢
  by_cases hca : lexLt c.data a.data = true
  · by_cases hbc : lexLt b.data c.data = true
    · have := lexLt_trans _ _ _ hbc hca
      rw [this] at h1
      exact absurd h1 (by simp)
    · have hbceq : b.data = c.data :=
        eq_of_not_lexLt b.data c.data (by simpa using hbc) h2
      rw [← hbceq] at hca
      rw [hca] at h1
      exact absurd h1 (by simp)
  · simpa using hca

instance : IsTotal (String × String) keyLe :=
  ⟨fun a b => by
    rcases strLe_total a.1 b.1 with h | h
    · exact Or.inl h
    · exact Or.inr h⟩

instance : IsTrans (String × String) keyLe :=
  ⟨fun a b c h1 h2 => strLe_trans a.1 b.1 c.1 h1 h2⟩

/-- Two key-sorted lists of rendered entries with distinct keys that are
permutations of each other are equal. -/
theorem sorted_key_nodup_eq :
    ∀ (l₁ l₂ : List (String × String)), l₁.Perm l₂ →
      l₁.Pairwise keyLe → l₂.Pairwise keyLe →
      (l₁.map Prod.fst).Nodup → l₁ = l₂ := by
  intro l₁
  induction l₁ with
  | nil =>
      intro l₂ hp _ _ _
      exact (List.Perm.eq_nil hp.symm).symm
  | cons a t₁ ih =>
      intro l₂ hp hs₁ hs₂ hnd
      cases l₂ with
      | nil => exact absurd (List.Perm.eq_nil hp) (by simp)
      | cons b t₂ =>
          have hnd' : (a.1 :: t₁.map Prod.fst).Nodup := by
            rw [List.map_cons] at hnd
            exact hnd
          have hab : a = b := by
            have haIn : a ∈ b :: t₂ := hp.mem_iff.mp (List.mem_cons_self a t₁)
            have hbIn : b ∈ a :: t₁ := hp.symm.mem_iff.mp (List.mem_cons_self b t₂)
            rcases List.mem_cons.mp haIn with h | haT2
            · exact h
            rcases List.mem_cons.mp hbIn with h | hbT1
            · exact h.symm
            have h1 : keyLe a b := (List.pairwise_cons.mp hs₁).1 b hbT1
            have h2 : keyLe b a := (List.pairwise_cons.mp hs₂).1 a haT2
            have hk : a.1 = b.1 := strLe_antisymm a.1 b.1 h1 h2
            have hnot : a.1 ∉ t₁.map Prod.fst := (List.nodup_cons.mp hnd').1
            exact absurd (List.mem_map.mpr ⟨b, hbT1, hk.symm⟩) hnot
          subst hab
          have hp' : t₁.Perm t₂ := hp.cons_inv
          have hrest := ih t₂ hp' (List.pairwise_cons.mp hs₁).2
            (List.pairwise_cons.mp hs₂).2 (List.nodup_cons.mp hnd').2
          rw [hrest]

/-- Sorting by key is invariant under permutation when keys are distinct. -/
theorem sortPairs_eq_of_perm (l₁ l₂ : List (String × String))
    (hp : l₁.Perm l₂) (hnd : (l₁.map Prod.fst).Nodup) :
    sortPairs l₁ = sortPairs l₂ := by
  apply sorted_key_nodup_eq
  · exact (List.perm_insertionSort keyLe l₁).trans
      (hp.trans (List.perm_insertionSort keyLe l₂).symm)
  · exact List.sorted_insertionSort keyLe l₁
  · exact List.sorted_insertionSort keyLe l₂
  · have hpk : ((sortPairs l₁).map Prod.fst).Perm (l₁.map Prod.fst) :=
      (List.perm_insertionSort keyLe l₁).map Prod.fst
    exact hpk.nodup_iff.mpr hnd

mutual

/-- Two JSON values that are equal as nested key-value structures and
differ only in object-key insertion order, at any nesting depth: an object
may permute its entries and rewrite each value to an equivalent one. -/
inductive JEquiv : Json → Json → Prop where
  | null : JEquiv .null .null
  | bool (b : Bool) : JEquiv (.bool b) (.bool b)
  | num (n : Int) : JEquiv (.num n) (.num n)
  | str (s : String) : JEquiv (.str s) (.str s)
  | arr {xs ys : List Json} :
      JListEquiv xs ys → JEquiv (.arr xs) (.arr ys)
  | obj {xs zs ys : List (String × Json)} :
      xs.Perm zs → JEntriesEquiv zs ys → JEquiv (.obj xs) (.obj ys)

/-- Pointwise equivalence of array elements. -/
inductive JListEquiv : List Json → List Json → Prop where
  | nil : JListEquiv [] []
  | cons {x y : Json} {xs ys : List Json} :
      JEquiv x y → JListEquiv xs ys → JListEquiv (x :: xs) (y :: ys)

/-- Pointwise equivalence of object entries: identical keys, equivalent
values. -/
inductive JEntriesEquiv :
    List (String × Json) → List (String × Json) → Prop where
  | nil : JEntriesEquiv [] []
  | cons {k : String} {v v2 : Json} {xs ys : List (String × Json)} :
      JEquiv v v2 → JEntriesEquiv xs ys →
      JEntriesEquiv ((k, v) :: xs) ((k, v2) :: ys)

end

/-- Distinct keys (Python `dict` keys are always distinct). -/
def nodupKeys : List String → Bool
  | [] => true
  | k :: ks => !ks.contains k && nodupKeys ks

mutual

/-- Well-formedness as a `dict`-shaped value: object keys are distinct at
every nesting depth. -/
def jsonWF : Json → Bool
  | .null => true
  | .bool _ => true
  | .num _ => true
  | .str _ => true
  | .arr xs => jsonListWF xs
  | .obj xs => nodupKeys (xs.map Prod.fst) && jsonEntriesWF xs
termination_by structural j => j

def jsonListWF : List Json → Bool
  | [] => true
  | x :: xs => jsonWF x && jsonListWF xs
termination_by structural l => l

def jsonEntriesWF : List (String × Json) → Bool
  | [] => true
  | (_, v) :: xs => jsonWF v && jsonEntriesWF xs
termination_by structural l => l

end

theorem nodupKeys_iff (ks : List String) : nodupKeys ks = true ↔ ks.Nodup := by
  induction ks with
  | nil => simp [nodupKeys]
  | cons k t ih =>
      simp [nodupKeys, ih, List.contains, List.elem_iff]

theorem jsonEntriesWF_eq_all (l : List (String × Json)) :
    jsonEntriesWF l = l.all fun p => jsonWF p.2 := by
  induction l with
  | nil => rfl
  | cons p t ih =>
      cases p with
      | mk k v => simp [jsonEntriesWF, ih]

theorem jsonListWF_eq_all (l : List Json) :
    jsonListWF l = l.all fun x => jsonWF x := by
  induction l with
  | nil => rfl
  | cons x t ih => simp [jsonListWF, ih]

/-- Entry well-formedness is stable under permutation. -/
theorem jsonEntriesWF_perm {xs zs : List (String × Json)} (hp : xs.Perm zs)
    (h : jsonEntriesWF xs = true) : jsonEntriesWF zs = true := by
  rw [jsonEntriesWF_eq_all] at h ⊢
  rw [List.all_eq_true] at h ⊢
  intro p hpMem
  exact h p (hp.mem_iff.mpr hpMem)

theorem serializeEntries_eq_map (l : List (String × Json)) :
    serializeEntries l = l.map fun p => (p.1, serialize p.2) := by
  induction l with
  | nil => rfl
  | cons p t ih =>
      cases p with
      | mk k v => simp [serializeEntries, ih]

/-- The sizeOf of a list is invariant under permutation. -/
theorem perm_sizeOf_eq {α : Type} [SizeOf α] {l₁ l₂ : List α}
    (h : l₁.Perm l₂) : sizeOf l₁ = sizeOf l₂ := by
  induction h with
  | nil => rfl
  | cons x _ ih => simp [ih]
  | swap x y l => simp; omega
  | trans _ _ ih₁ ih₂ => omega

mutual

/-- Canonical serialization is invariant under key-order equivalence for
well-formed (distinct-key) values. -/
theorem serialize_eq_of_equiv (a b : Json) (hwf : jsonWF a = true)
    (h : JEquiv a b) : serialize a = serialize b := by
  cases h with
  | null => rfl
  | bool b => rfl
  | num n => rfl
  | str s => rfl
  | @arr xs ys hf =>
      have hl : serializeList xs = serializeList ys :=
        serializeList_eq_of_equiv xs ys (by simpa [jsonWF] using hwf) hf
      simp only [serialize, hl]
  | @obj xs zs ys hperm hf =>
      have hwf' := hwf
      simp only [jsonWF, Bool.and_eq_true] at hwf'
      have hwfZ : jsonEntriesWF zs = true := jsonEntriesWF_perm hperm hwf'.2
      have h1 : serializeEntries zs = serializeEntries ys :=
        serializeEntries_eq_of_equiv zs ys hwfZ hf
      have h2 : (serializeEntries xs).Perm (serializeEntries ys) := by
        rw [h1.symm, serializeEntries_eq_map, serializeEntries_eq_map]
        exact hperm.map _
      have hnd : ((serializeEntries xs).map Prod.fst).Nodup := by
        rw [serializeEntries_eq_map, List.map_map]
        have hkeys : (Prod.fst ∘ fun p : String × Json =>
            ((p.1 : String), serialize p.2)) = Prod.fst := by
          funext p
          rfl
        rw [hkeys]
        exact (nodupKeys_iff _).mp hwf'.1
      have h3 : sortPairs (serializeEntries xs) =
          sortPairs (serializeEntries ys) :=
        sortPairs_eq_of_perm _ _ h2 hnd
      simp only [serialize, h3]
termination_by sizeOf a
decreasing_by
  · subst_vars
    simp only [Json.arr.sizeOf_spec]
    omega
  · subst_vars
    have hsz := perm_sizeOf_eq hperm
    simp only [Json.obj.sizeOf_spec]
    omega

theorem serializeList_eq_of_equiv (xs ys : List Json)
    (hwf : jsonListWF xs = true) (h : JListEquiv xs ys) :
    serializeList xs = serializeList ys := by
  cases h with
  | nil => rfl
  | @cons x y xs' ys' hxy hrest =>
      have hwf' := hwf
      simp only [jsonListWF, Bool.and_eq_true] at hwf'
      have h1 : serialize x = serialize y :=
        serialize_eq_of_equiv x y hwf'.1 hxy
      have h2 : serializeList xs' = serializeList ys' :=
        serializeList_eq_of_equiv xs' ys' hwf'.2 hrest
      simp only [serializeList, h1, h2]
termination_by sizeOf xs
decreasing_by
  · subst_vars
    simp only [List.cons.sizeOf_spec]
    omega
  · subst_vars
    simp only [List.cons.sizeOf_spec]
    omega

theorem serializeEntries_eq_of_equiv (zs ys : List (String × Json))
    (hwf : jsonEntriesWF zs = true) (h : JEntriesEquiv zs ys) :
    serializeEntries zs = serializeEntries ys := by
  cases h with
  | nil => rfl
  | @cons k v v2 zs' ys' hv hrest =>
      have hwf' := hwf
      simp only [jsonEntriesWF, Bool.and_eq_true] at hwf'
      have h1 : serialize v = serialize v2 :=
        serialize_eq_of_equiv v v2 hwf'.1 hv
      have h2 : serializeEntries zs' = serializeEntries ys' :=
        serializeEntries_eq_of_equiv zs' ys' hwf'.2 hrest
      simp only [serializeEntries, h1, h2]
termination_by sizeOf zs
decreasing_by
  · subst_vars
    simp only [List.cons.sizeOf_spec, Prod.mk.sizeOf_spec]
    omega
  · subst_vars
    simp only [List.cons.sizeOf_spec]
    omega

end

/-- `_stable_hash`: canonical JSON (sorted keys, compact separators) of the
configuration, UTF-8 encoded and SHA-256 digested. -/
def stable_hash (config : Json) : String :=
  sha256Hex (utf8 (serialize config))

/-- Python whitespace stripped by `int(str)`. -/
def isPySpace (c : Char) : Bool :=
  c = ' ' || c = '\t' || c = '\n' || c = '\r'

/-- Value of a nonempty all-digit character list. -/
def digitsVal : List Char → Option Nat
  | [] => none
  | cs =>
      cs.foldl
        (fun acc c =>
          match acc with
          | none => none
          | some n => if c.isDigit then some (10 * n + (c.toNat - 48)) else none)
        (some 0)

/-- Python `int(str)`: strip whitespace, optional sign, decimal digits
(digit-group underscores are not modelled; no version label uses them). -/
def pyIntChars (cs0 : List Char) : Option Int :=
  let cs := ((cs0.dropWhile isPySpace).reverse.dropWhile isPySpace).reverse
  match cs with
  | '+' :: rest => (digitsVal rest).map Int.ofNat
  | '-' :: rest => (digitsVal rest).map fun n => -(n : Int)
  | rest => (digitsVal rest).map Int.ofNat

/-- `version.split(".")` character-wise. -/
def splitDot : List Char → List (List Char)
  | [] => [[]]
  | c :: cs =>
      let rest := splitDot cs
      if c = '.' then [] :: rest
      else
        match rest with
        | [] => [[c]]
        | r :: rs => (c :: r) :: rs

/-- `_parse_version`: falsy versions (None or "") default to `(0, 1, 0)`;
missing minor/patch parts default to 0; any `int()` failure in the `try`
block defaults the whole triple to `(0, 1, 0)`. -/
def parse_version : Option String → Int × Int × Int
  | none => (0, 1, 0)
  | some v =>
      if v = "" then (0, 1, 0)
      else
        let parts := splitDot v.data
        match pyIntChars (parts.getD 0 []) with
        | none => (0, 1, 0)
        | some major =>
            if parts.length > 1 then
              match pyIntChars (parts.getD 1 []) with
              | none => (0, 1, 0)
              | some minor =>
                  if parts.length > 2 then
                    match pyIntChars (parts.getD 2 []) with
                    | none => (0, 1, 0)
                    | some patch => (major, minor, patch)
                  else (major, minor, 0)
            else (major, 0, 0)

/-- `PolicyVersion`: semantic version with deterministic config hash. -/
structure PolicyVersion where
  major : Int
  minor : Int
  patch : Int
  config_hash : String
deriving DecidableEq

/-- `PolicyVersion.from_config`. -/
def PolicyVersion.from_config (version : Option String) (rule_config : Json) :
    PolicyVersion :=
  let parsed := parse_version version
  { major := parsed.1
    minor := parsed.2.1
    patch := parsed.2.2
    config_hash := stable_hash rule_config }

/-- C7: `from_config` produces identical `config_hash` values for two rule
configurations that are equal as nested key-value structures and differ
only in key insertion order at any depth (keys of a Python dict being
distinct). -/
theorem C7_config_hash_order_insensitive (version : Option String)
    (cfg1 cfg2 : Json) (hwf : jsonWF cfg1 = true) (heq : JEquiv cfg1 cfg2) :
    (PolicyVersion.from_config version cfg1).config_hash =
      (PolicyVersion.from_config version cfg2).config_hash := by
  simp only [PolicyVersion.from_config, stable_hash]
  rw [serialize_eq_of_equiv cfg1 cfg2 hwf heq]

/-- Witness for C7: the same two-rule configuration with its inner keys
given in opposite insertion orders hashes identically. -/
theorem C7_config_hash_order_insensitive_witness :
    (PolicyVersion.from_config (some "1.2.3")
        (.obj [("rules", .obj [("a", .num 1), ("b", .num 2)])])).config_hash =
      (PolicyVersion.from_config (some "1.2.3")
        (.obj [("rules", .obj [("b", .num 2), ("a", .num 1)])])).config_hash := by
  apply C7_config_hash_order_insensitive
  · decide
  · refine JEquiv.obj (List.Perm.refl _) ?_
    refine JEntriesEquiv.cons ?_ JEntriesEquiv.nil
    refine JEquiv.obj
      (List.Perm.swap ("b", Json.num 2) ("a", Json.num 1) []) ?_
    exact JEntriesEquiv.cons (JEquiv.num 2)
      (JEntriesEquiv.cons (JEquiv.num 1) JEntriesEquiv.nil)

/-! ## Policy engine configuration loading (`policy.py`) -/

/-- Python `dict.__setitem__`: replace in place if the key exists, else
append. -/
def dictUpdate {α : Type} (d : List (String × α)) (k : String) (v : α) :
    List (String × α) :=
  if d.any fun p => p.1 = k then
    d.map fun p => if p.1 = k then (k, v) else p
  else d ++ [(k, v)]

/-- `default.copy()` followed by `merged.update(rule_cfg)`. -/
def dictMerge {α : Type} (d u : List (String × α)) : List (String × α) :=
  u.foldl (fun acc p => dictUpdate acc p.1 p.2) d

/-- `_load_rule_config`: the per-rule defaults overlaid with the rule's
entry of the `rules` mapping; a missing or falsy entry contributes nothing
(`or {}`). -/
def load_rule_config (rules_cfg : List (String × Json)) (key : String)
    (default : List (String × Json)) : List (String × Json) :=
  dictMerge default
    (match rules_cfg.lookup key with
     | some (.obj xs) => xs
     | _ => [])

/-- Python `int(x)` on a config value. -/
def pyIntCast : Json → Except String Int
  | .num n => .ok n
  | .bool true => .ok 1
  | .bool false => .ok 0
  | .str s =>
      match pyIntChars s.data with
      | some n => .ok n
      | none => .error "invalid literal for int()"
  | _ => .error "int() argument must be a string or a number"

/-- Python `float(x)` (also standing in for `Decimal(x)` thresholds);
fractional literals are not modelled — no claim depends on them. -/
def pyFloatCast : Json → Except String Rat
  | .num n => .ok (n : Rat)
  | .bool true => .ok 1
  | .bool false => .ok 0
  | .str s =>
      match pyIntChars s.data with
      | some n => .ok (n : Rat)
      | none => .error "could not convert string to float"
  | _ => .error "float() argument must be a string or a number"

/-- Python `str(x)` on a config value (severity labels are strings). -/
def pyStrCast : Json → String
  | .str s => s
  | j => serialize j

/-- An iterable of strings from the config. -/
def asStrings : List Json → Except String (List String)
  | [] => .ok []
  | .str s :: rest => (asStrings rest).map fun t => s :: t
  | _ => .error "expected a list of strings"

/-- A list-of-strings config value. -/
def strListCast : Json → Except String (List String)
  | .arr xs => asStrings xs
  | _ => .error "expected a list"

/-- `merged[key]` — raises `KeyError` when absent. -/
def reqField (cfg : List (String × Json)) (k : String) : Except String Json :=
  match cfg.lookup k with
  | some v => .ok v
  | none => .error ("KeyError: " ++ k)

/-- The ten rule-type ids `PolicyEngine.from_yaml` knows. -/
def knownRuleKeys : List String :=
  ["advance_booking", "fare_comparison", "cabin_class", "fare_evidence",
   "driving_vs_flying", "hotel_comparison", "local_overnight",
   "meal_per_diem", "non_reimbursable", "third_party_paid"]

/-- The rules `from_yaml` builds from an empty configuration: every
parameter at its per-rule default (keyword/cabin lists stored lowercased by
the rule constructors). -/
def defaultPolicyRules : List PolicyRule :=
  [.advance_booking 14 "advisory",
   .fare_comparison 200 "blocking",
   .cabin_class 5 ["economy"] "blocking",
   .fare_evidence "blocking",
   .driving_vs_flying "advisory",
   .hotel_comparison 2 "advisory",
   .local_overnight 50 "advisory",
   .meal_per_diem "advisory",
   .non_reimbursable ["liquor", "alcohol", "personal"] "blocking",
   .third_party_paid "blocking"]

/-- `PolicyEngine.from_yaml` after `yaml.safe_load`: merge each known
rule's config over its defaults and construct the ten rules.  Unknown keys
in the `rules` mapping are never consulted; missing parameters are filled
from the defaults; only a cast failure on a present-but-ill-typed value
raises. -/
def policy_from_rules_cfg (rules_cfg : List (String × Json)) :
    Except String PolicyEngine := do
  let advance_cfg := load_rule_config rules_cfg "advance_booking"
    [("days_required", .num 14), ("severity", .str "advisory")]
  let fare_comparison_cfg := load_rule_config rules_cfg "fare_comparison"
    [("max_over_lowest", .num 200), ("severity", .str "blocking")]
  let cabin_class_cfg := load_rule_config rules_cfg "cabin_class"
    [("long_haul_hours", .num 5), ("allowed_classes", .arr [.str "economy"]),
     ("severity", .str "blocking")]
  let fare_evidence_cfg := load_rule_config rules_cfg "fare_evidence"
    [("severity", .str "blocking")]
  let driving_cfg := load_rule_config rules_cfg "driving_vs_flying"
    [("severity", .str "advisory")]
  let hotel_cfg := load_rule_config rules_cfg "hotel_comparison"
    [("minimum_alternatives", .num 2), ("severity", .str "advisory")]
  let local_cfg := load_rule_config rules_cfg "local_overnight"
    [("min_distance_miles", .num 50), ("severity", .str "advisory")]
  let meal_cfg := load_rule_config rules_cfg "meal_per_diem"
    [("severity", .str "advisory")]
  let nonreimb_cfg := load_rule_config rules_cfg "non_reimbursable"
    [("blocked_keywords",
        .arr [.str "liquor", .str "alcohol", .str "personal"]),
     ("severity", .str "blocking")]
  let third_cfg := load_rule_config rules_cfg "third_party_paid"
    [("severity", .str "blocking")]
  let days_required ← pyIntCast (← reqField advance_cfg "days_required")
  let max_over_lowest ← pyIntCast (← reqField fare_comparison_cfg "max_over_lowest")
  let long_haul_hours ← pyFloatCast (← reqField cabin_class_cfg "long_haul_hours")
  let allowed_classes ← strListCast (← reqField cabin_class_cfg "allowed_classes")
  let minimum_alternatives ← pyIntCast (← reqField hotel_cfg "minimum_alternatives")
  let min_distance_miles ← pyFloatCast (← reqField local_cfg "min_distance_miles")
  let blocked_keywords ← strListCast (← reqField nonreimb_cfg "blocked_keywords")
  let adv_sev := pyStrCast (← reqField advance_cfg "severity")
  let fare_sev := pyStrCast (← reqField fare_comparison_cfg "severity")
  let cabin_sev := pyStrCast (← reqField cabin_class_cfg "severity")
  let evid_sev := pyStrCast (← reqField fare_evidence_cfg "severity")
  let driving_sev := pyStrCast (← reqField driving_cfg "severity")
  let hotel_sev := pyStrCast (← reqField hotel_cfg "severity")
  let local_sev := pyStrCast (← reqField local_cfg "severity")
  let meal_sev := pyStrCast (← reqField meal_cfg "severity")
  let nonreimb_sev := pyStrCast (← reqField nonreimb_cfg "severity")
  let third_sev := pyStrCast (← reqField third_cfg "severity")
  .ok ⟨[
    .advance_booking days_required adv_sev,
    .fare_comparison max_over_lowest fare_sev,
    .cabin_class long_haul_hours (allowed_classes.map strLower) cabin_sev,
    .fare_evidence evid_sev,
    .driving_vs_flying driving_sev,
    .hotel_comparison minimum_alternatives hotel_sev,
    .local_overnight min_distance_miles local_sev,
    .meal_per_diem meal_sev,
    .non_reimbursable (blocked_keywords.map strLower) nonreimb_sev,
    .third_party_paid third_sev]⟩

/-- `PolicyEngine.from_yaml` after `yaml.safe_load`: extract the `rules`
mapping (`{}` when absent or falsy) and build the engine from it. -/
def policy_from_yaml_config (config : Json) : Except String PolicyEngine :=
  policy_from_rules_cfg
    (match config with
     | .obj xs =>
         match xs.lookup "rules" with
         | some (.obj rs) => rs
         | _ => []
     | _ => [])

deriving instance DecidableEq for Except

/-- Counterexample for C3: an unknown rule-type key loads successfully (it
is silently ignored), a rule entry omitting its required parameter loads
successfully (the default is substituted), and a malformed version label
parses to the default `(0, 1, 0)` — none of the three raises. -/
theorem C3_counterexample :
    parse_version (some "not-a-version") = (0, 1, 0) ∧
    policy_from_yaml_config
        (.obj [("rules", .obj [("bogus_rule", .obj [("x", .num 1)])])]) =
      .ok ⟨defaultPolicyRules⟩ ∧
    policy_from_yaml_config
        (.obj [("rules", .obj [("advance_booking", .obj [])])]) =
      .ok ⟨defaultPolicyRules⟩ := by
  refine ⟨by decide, by decide, by decide⟩

/-- C3 amended: configuration loading never fails for unknown rule-type
keys or missing parameters — `from_yaml` builds the default rules from any
`rules` mapping that sets none of the known rule-type ids (unknown ids are
never consulted, absent parameters come from the per-rule defaults) — and
`_parse_version` substitutes the default `(0, 1, 0)` for falsy or
unparsable version labels instead of raising. -/
theorem C3_amended_silent_defaults (m : List (String × Json))
    (h : ∀ k ∈ knownRuleKeys, m.lookup k = none) :
    policy_from_yaml_config (.obj [("rules", .obj m)]) =
      .ok ⟨defaultPolicyRules⟩ ∧
    parse_version none = (0, 1, 0) ∧
    (∀ s : String, pyIntChars ((splitDot s.data).getD 0 []) = none →
      parse_version (some s) = (0, 1, 0)) := by
  refine ⟨?_, rfl, ?_⟩
  · have h1 : m.lookup "advance_booking" = none := h _ (by simp [knownRuleKeys])
    have h2 : m.lookup "fare_comparison" = none := h _ (by simp [knownRuleKeys])
    have h3 : m.lookup "cabin_class" = none := h _ (by simp [knownRuleKeys])
    have h4 : m.lookup "fare_evidence" = none := h _ (by simp [knownRuleKeys])
    have h5 : m.lookup "driving_vs_flying" = none := h _ (by simp [knownRuleKeys])
    have h6 : m.lookup "hotel_comparison" = none := h _ (by simp [knownRuleKeys])
    have h7 : m.lookup "local_overnight" = none := h _ (by simp [knownRuleKeys])
    have h8 : m.lookup "meal_per_diem" = none := h _ (by simp [knownRuleKeys])
    have h9 : m.lookup "non_reimbursable" = none := h _ (by simp [knownRuleKeys])
    have h10 : m.lookup "third_party_paid" = none := h _ (by simp [knownRuleKeys])
    have hw : policy_from_yaml_config (.obj [("rules", .obj m)]) =
        policy_from_rules_cfg m := rfl
    rw [hw]
    simp only [policy_from_rules_cfg, load_rule_config, h1, h2, h3, h4, h5,
      h6, h7, h8, h9, h10]
    rfl
  · intro s hs
    unfold parse_version
    by_cases he : s = ""
    · simp [he]
    · have hs' : pyIntChars ((splitDot s.data)[0]?.getD []) = none := by
        simpa using hs
      simp [he, hs']

/-- Witness for C3 (amended): a rules mapping containing only an unknown
rule id yields the default engine. -/
theorem C3_amended_silent_defaults_witness :
    policy_from_yaml_config
        (.obj [("rules", .obj [("bogus_rule", .obj [("x", .num 1)])])]) =
      .ok ⟨defaultPolicyRules⟩ ∧
    parse_version (some "garbage") = (0, 1, 0) := by
  constructor
  · exact (C3_amended_silent_defaults [("bogus_rule", .obj [("x", .num 1)])]
      (by intro k hk; fin_cases hk <;> rfl)).1
  · exact (C3_amended_silent_defaults []
      (by intro k hk; fin_cases hk <;> rfl)).2.2 "garbage" (by decide)

/-! ## Result comparison (`snapshots.py`: `compare_results`) -/

/-- `{result.code: result for result in results}`: a Python dict
comprehension keeps first-insertion key order and the last write per key. -/
def buildMap (rs : List ValidationResult) : List (String × ValidationResult) :=
  rs.foldl (fun m r => dictUpdate m r.code r) []

/-- `ValidationDelta`: one rule's difference between two runs. -/
structure ValidationDelta where
  rule_code : String
  original : Option ValidationResult
  rechecked : Option ValidationResult
deriving DecidableEq

/-- `ValidationDelta.changed`: a side missing is always a change; both
present compare as `(severity, message, blocking)` signatures. -/
def ValidationDelta.changed (d : ValidationDelta) : Bool :=
  match d.original, d.rechecked with
  | some o, some r =>
      if (o.severity, o.message, o.blocking) =
          (r.severity, r.message, r.blocking) then false
      else true
  | _, _ => true

/-- `ValidationComparison`. -/
structure ValidationComparison where
  changed : List ValidationDelta
  unchanged : List ValidationDelta
deriving DecidableEq

/-- `compare_results`: index both sides by `code`; every code of the
original map yields a delta against the rechecked lookup, partitioned by
`changed()`; codes only in the rechecked map append one-sided deltas to
`changed`, in iteration order. -/
def compare_results (original rechecked : List ValidationResult) :
    ValidationComparison :=
  let original_map := buildMap original
  let rechecked_map := buildMap rechecked
  let deltas := original_map.map fun p =>
    ValidationDelta.mk p.1 (some p.2) (rechecked_map.lookup p.1)
  let extra := (rechecked_map.filter fun p =>
      (original_map.lookup p.1).isNone).map fun p =>
    ValidationDelta.mk p.1 none (some p.2)
  { changed := deltas.filter (fun d => d.changed) ++ extra
    unchanged := deltas.filter fun d => !d.changed }

/-- A successful lookup names a list entry. -/
theorem lookup_mem {α : Type} {l : List (String × α)} {c : String} {v : α}
    (h : l.lookup c = some v) : (c, v) ∈ l := by
  induction l with
  | nil => simp [List.lookup] at h
  | cons p t ih =>
      cases p with
      | mk k w =>
          by_cases hc : c = k
          · subst hc
            simp [List.lookup] at h
            subst h
            exact List.mem_cons_self _ _
          · simp only [List.lookup, beq_eq_false_iff_ne.mpr hc] at h
            exact List.mem_cons_of_mem _ (ih h)

/-- With distinct keys, membership determines the lookup. -/
theorem mem_lookup {α : Type} {l : List (String × α)} {c : String} {v : α}
    (hnd : (l.map Prod.fst).Nodup) (h : (c, v) ∈ l) : l.lookup c = some v := by
  induction l with
  | nil => simp at h
  | cons p t ih =>
      cases p with
      | mk k w =>
          rw [List.map_cons] at hnd
          have hnd' := List.nodup_cons.mp hnd
          rcases List.mem_cons.mp h with he | ht
          · injection he with he1 he2
            subst he1
            subst he2
            simp [List.lookup]
          · have hck : c ≠ k := by
              intro he
              subst he
              exact hnd'.1 (List.mem_map.mpr ⟨(c, v), ht, rfl⟩)
            simp only [List.lookup, beq_eq_false_iff_ne.mpr hck]
            exact ih hnd'.2 ht

/-- `dict.__setitem__` keeps the key list, or appends the fresh key. -/
theorem dictUpdate_keys {α : Type} (d : List (String × α)) (k : String)
    (v : α) :
    (dictUpdate d k v).map Prod.fst =
      if d.any fun p => p.1 = k then d.map Prod.fst
      else d.map Prod.fst ++ [k] := by
  unfold dictUpdate
  split
  · simp only [List.map_map]
    apply List.map_congr_left
    intro p _
    by_cases hpk : p.1 = k
    · simp [hpk]
    · simp [hpk]
  · simp

/-- `dict.__setitem__` preserves key distinctness. -/
theorem dictUpdate_keys_nodup {α : Type} {d : List (String × α)}
    (hnd : (d.map Prod.fst).Nodup) (k : String) (v : α) :
    ((dictUpdate d k v).map Prod.fst).Nodup := by
  rw [dictUpdate_keys]
  split
  · exact hnd
  · rename_i hany
    have hk : k ∉ d.map Prod.fst := by
      intro hkm
      rcases List.mem_map.mp hkm with ⟨p, hp, he⟩
      exact hany (List.any_eq_true.mpr ⟨p, hp, by simp [he]⟩)
    rw [List.nodup_append]
    exact ⟨hnd, List.nodup_singleton k, by
      intro a ha hb
      simp at hb
      subst hb
      exact hk ha⟩

/-- Keys of a built dict are distinct. -/
theorem buildMap_nodup (rs : List ValidationResult) :
    ((buildMap rs).map Prod.fst).Nodup := by
  have haux : ∀ (l : List ValidationResult) (m : List (String × ValidationResult)),
      (m.map Prod.fst).Nodup →
      ((l.foldl (fun m r => dictUpdate m r.code r) m).map Prod.fst).Nodup := by
    intro l
    induction l with
    | nil => intro m h; simpa using h
    | cons r t ih =>
        intro m h
        exact ih _ (dictUpdate_keys_nodup h _ _)
  exact haux rs [] (by simp)

/-- C9: `compare_results` matches results by rule code. A code present in
both maps is classified `changed` exactly when its
`(severity, message, blocking)` signature differs (and `unchanged`
otherwise); a code present on only one side always lands in `changed`; and
comparing any result set against itself yields zero changed entries. -/
theorem C9_compare_results_matching
    (original rechecked R : List ValidationResult) :
    (∀ c o r, (buildMap original).lookup c = some o →
        (buildMap rechecked).lookup c = some r →
        ((ValidationDelta.mk c (some o) (some r) ∈
            (compare_results original rechecked).changed ↔
          (ValidationDelta.mk c (some o) (some r)).changed = true) ∧
         (ValidationDelta.mk c (some o) (some r) ∈
            (compare_results original rechecked).unchanged ↔
          (ValidationDelta.mk c (some o) (some r)).changed = false))) ∧
    (∀ c o, (buildMap original).lookup c = some o →
        (buildMap rechecked).lookup c = none →
        ValidationDelta.mk c (some o) none ∈
          (compare_results original rechecked).changed) ∧
    (∀ c r, (buildMap original).lookup c = none →
        (buildMap rechecked).lookup c = some r →
        ValidationDelta.mk c none (some r) ∈
          (compare_results original rechecked).changed) ∧
    (compare_results R R).changed = [] := by
  refine ⟨?_, ?_, ?_, ?_⟩
  · intro c o r h1 h2
    have hmem : (c, o) ∈ buildMap original := lookup_mem h1
    have hdmem : ValidationDelta.mk c (some o) (some r) ∈
        (buildMap original).map fun p =>
          ValidationDelta.mk p.1 (some p.2) ((buildMap rechecked).lookup p.1) :=
      List.mem_map.mpr ⟨(c, o), hmem, by simp [h2]⟩
    constructor
    · constructor
      · intro hin
        simp only [compare_results] at hin
        rcases List.mem_append.mp hin with hin | hin
        · exact (List.mem_filter.mp hin).2
        · rcases List.mem_map.mp hin with ⟨p, -, he⟩
          cases he
      · intro hch
        simp only [compare_results]
        exact List.mem_append.mpr (Or.inl (List.mem_filter.mpr ⟨hdmem, hch⟩))
    · constructor
      · intro hin
        simp only [compare_results] at hin
        have := (List.mem_filter.mp hin).2
        simpa using this
      · intro hch
        simp only [compare_results]
        exact List.mem_filter.mpr ⟨hdmem, by simp [hch]⟩
  · intro c o h1 h2
    have hmem : (c, o) ∈ buildMap original := lookup_mem h1
    have hdmem : ValidationDelta.mk c (some o) none ∈
        (buildMap original).map fun p =>
          ValidationDelta.mk p.1 (some p.2) ((buildMap rechecked).lookup p.1) :=
      List.mem_map.mpr ⟨(c, o), hmem, by simp [h2]⟩
    simp only [compare_results]
    refine List.mem_append.mpr (Or.inl (List.mem_filter.mpr ⟨hdmem, ?_⟩))
    rfl
  · intro c r h1 h2
    have hmem : (c, r) ∈ buildMap rechecked := lookup_mem h2
    simp only [compare_results]
    refine List.mem_append.mpr (Or.inr ?_)
    refine List.mem_map.mpr ⟨(c, r), ?_, rfl⟩
    refine List.mem_filter.mpr ⟨hmem, ?_⟩
    simp [h1]
  · simp only [compare_results]
    have hfil : ((buildMap R).map fun p =>
        ValidationDelta.mk p.1 (some p.2) ((buildMap R).lookup p.1)).filter
          (fun d => d.changed) = [] := by
      rw [List.filter_eq_nil_iff]
      intro d hd
      rcases List.mem_map.mp hd with ⟨p, hp, he⟩
      have hlk : (buildMap R).lookup p.1 = some p.2 :=
        mem_lookup (buildMap_nodup R) (by simpa using hp)
      subst he
      simp [hlk, ValidationDelta.changed]
    have hext : ((buildMap R).filter fun p =>
        ((buildMap R).lookup p.1).isNone) = [] := by
      rw [List.filter_eq_nil_iff]
      intro p hp
      have hlk : (buildMap R).lookup p.1 = some p.2 :=
        mem_lookup (buildMap_nodup R) (by simpa using hp)
      simp [hlk]
    rw [hfil, hext]
    simp

/-- Witness for C9: a rule whose message and severity changed between runs
is reported in `changed`, and comparing a result set with itself reports
nothing. -/
theorem C9_compare_results_matching_witness :
    ValidationDelta.mk "A"
        (some { code := "A", message := "ok", severity := "info"
                rule_name := "r", blocking := false })
        (some { code := "A", message := "too costly", severity := "error"
                rule_name := "r", blocking := true }) ∈
      (compare_results
        [{ code := "A", message := "ok", severity := "info"
           rule_name := "r", blocking := false }]
        [{ code := "A", message := "too costly", severity := "error"
           rule_name := "r", blocking := true }]).changed ∧
    (compare_results
        [{ code := "A", message := "ok", severity := "info"
           rule_name := "r", blocking := false }]
        [{ code := "A", message := "ok", severity := "info"
           rule_name := "r", blocking := false }]).changed = [] := by
  constructor
  · exact (((C9_compare_results_matching
      [{ code := "A", message := "ok", severity := "info"
         rule_name := "r", blocking := false }]
      [{ code := "A", message := "too costly", severity := "error"
         rule_name := "r", blocking := true }]
      []).1 "A"
      { code := "A", message := "ok", severity := "info"
        rule_name := "r", blocking := false }
      { code := "A", message := "too costly", severity := "error"
        rule_name := "r", blocking := true }
      (by decide) (by decide)).1).mpr (by decide)
  · exact (C9_compare_results_matching [] []
      [{ code := "A", message := "ok", severity := "info"
         rule_name := "r", blocking := false }]).2.2.2
